import Mathlib

/-!
Verification of the multi-source paper aggregation and deduplication pipeline
of the mockingbird repository.

The JavaScript sources are shallowly embedded as Lean definitions:

* JS strings are modelled as `List Char` (`JStr`); `undefined`-able string
  fields are `Option JStr`, and JS truthiness of a string field (`undefined`,
  `null` and `""` are falsy) is the predicate `truthy`.
* JS numbers appearing here are machine integers small enough that we model
  them as `Nat`/`Int`; the one numeric division (in `similarity`) is modelled
  exactly over `ℚ` (the values involved are ratios of small naturals, far
  below any double-rounding boundary relevant to the 0.9 threshold).
* fallible/network code is modelled by passing the outcome of each network
  call explicitly (`HttpResp`, `FetchOutcome`).
-/

/-- Model of a JavaScript string: a sequence of characters. -/
abbrev JStr := List Char

/-- JS `String.prototype.toLowerCase` (ASCII range, which is all the code
relies on: every consumer either compares against ASCII literals or strips
non-`[a-z0-9]` characters immediately afterwards). -/
def lowerStr (s : JStr) : JStr := s.map Char.toLower

/-- JS truthiness of a possibly-undefined string value: `undefined` and the
empty string are falsy. -/
def truthy (o : Option JStr) : Bool :=
  match o with
  | some s => !s.isEmpty
  | none => false

/-- JS `a.includes(b)` on strings: substring containment. -/
def jsIncludes (s sub : JStr) : Bool := decide (sub <:+: s)

/-- JS word character class `\w = [A-Za-z0-9_]`. -/
def isWordChar (c : Char) : Bool :=
  (decide ('a' ≤ c) && decide (c ≤ 'z')) ||
  (decide ('A' ≤ c) && decide (c ≤ 'Z')) ||
  (decide ('0' ≤ c) && decide (c ≤ '9')) ||
  decide (c = '_')

/-- Does the pattern `pat` occur in `s` at index `i` with `\b` word
boundaries on both sides (the JS regex `/\bpat\b/`)? -/
def wordMatchAt (s pat : JStr) (i : Nat) : Bool :=
  decide ((s.drop i).take pat.length = pat) &&
  (decide (i = 0) || !isWordChar (s.getD (i - 1) ' ')) &&
  !isWordChar (s.getD (i + pat.length) ' ')

/-- JS `/\bpat\b/.test(s)`. -/
def wordTest (s pat : JStr) : Bool :=
  (List.range s.length).any (wordMatchAt s pat)

/- ### similarity (phage-therapy-triple-hybrid.js lines 293-327 and
   1076-1110; the two copies are character-for-character identical) -/

/-- One step of the inner `for (let j ...)` loop of the `editDistance`
closure: processing character `ci` of the first string against the remaining
characters of the second string and the remaining entries of the previous
`costs` row.  `lastValue` plays exactly the role of the JS variable of that
name; the emitted list is the next row (the in-place writes
`costs[j-1] = lastValue` of the source, read off left to right). -/
def rowStep (ci : Char) : Nat → List Char → List Nat → List Nat
  | lastValue, y :: ys, prev0 :: prev1 :: rest =>
      let newValue := if ci = y then prev0
        else Nat.min (Nat.min prev0 lastValue) prev1 + 1
      lastValue :: rowStep ci newValue ys (prev1 :: rest)
  | lastValue, _, _ => [lastValue]

/-- The outer `for (let i ...)` loop of the `editDistance` closure, rows
`i, i+1, ...` (the `i = 0` iteration of the source only initializes
`costs[j] = j`, which is the initial `costs` argument below). -/
def distRows (t2 : List Char) : List Char → Nat → List Nat → List Nat
  | [], _, costs => costs
  | c :: cs, i, costs => distRows t2 cs (i + 1) (rowStep c i t2 costs)

/-- The `editDistance` closure of `similarity`: lowercases both inputs, runs
the rolling-row dynamic program, and returns `costs[s2.length]`. -/
def editDistance (s1 s2 : JStr) : Nat :=
  let t1 := lowerStr s1
  let t2 := lowerStr s2
  (distRows t2 t1 1 (List.range (t2.length + 1))).getD t2.length 0

/-- `similarity(s1, s2)` (source lines 293-327).  The JS float arithmetic is
modelled exactly over `ℚ`. -/
def similarity (s1 s2 : JStr) : ℚ :=
  if s1.isEmpty || s2.isEmpty then 0
  else
    let longer := if s2.length < s1.length then s1 else s2
    let shorter := if s2.length < s1.length then s2 else s1
    if longer.length = 0 then (1 : ℚ)
    else ((longer.length : ℚ) - (editDistance longer shorter : ℚ)) / (longer.length : ℚ)

/- ### Specification-side Levenshtein distance -/

/-- Standard single-character-edit Levenshtein distance between the first `i`
characters of `t1` and the first `j` characters of `t2`, by the textbook
Wagner-Fischer recurrence.  This is the specification-side definition the
similarity formula of the spec is stated with. -/
def levWF (t1 t2 : List Char) : Nat → Nat → Nat
  | 0, j => j
  | i + 1, 0 => i + 1
  | i + 1, j + 1 =>
      if t1.getD i 'a' = t2.getD j 'a' then levWF t1 t2 i j
      else Nat.min (Nat.min (levWF t1 t2 i (j + 1)) (levWF t1 t2 (i + 1) j))
             (levWF t1 t2 i j) + 1
  termination_by i j => (i, j)

theorem levWF_zero_right (t1 t2 : List Char) (i : Nat) : levWF t1 t2 i 0 = i := by
  cases i <;> simp [levWF]

theorem levWF_zero_left (t1 t2 : List Char) (j : Nat) : levWF t1 t2 0 j = j := by
  simp [levWF]

/-- The Levenshtein distance is bounded by the longer prefix length. -/
theorem levWF_le_max (t1 t2 : List Char) (i j : Nat) :
    levWF t1 t2 i j ≤ Nat.max i j := by
  induction i, j using levWF.induct t1 t2 with
  | case1 j => simp [levWF]
  | case2 i => simp [levWF]
  | case3 i j h ih =>
      rw [levWF, if_pos h]
      revert ih
      simp only [Nat.max_def]
      split_ifs <;> omega
  | case4 i j h ih1 ih2 ih3 =>
      rw [levWF, if_neg h]
      revert ih1 ih2 ih3
      simp only [Nat.min_def, Nat.max_def]
      split_ifs <;> omega

/-- Levenshtein distance is symmetric. -/
theorem levWF_symm (t1 t2 : List Char) (i j : Nat) :
    levWF t1 t2 i j = levWF t2 t1 j i := by
  induction i, j using levWF.induct t1 t2 with
  | case1 j => rw [levWF_zero_left, levWF_zero_right]
  | case2 i => rw [levWF_zero_right, levWF_zero_left]
  | case3 i j h ih =>
      rw [levWF, if_pos h, levWF, if_pos h.symm, ih]
  | case4 i j h ih1 ih2 ih3 =>
      rw [levWF, if_neg h, levWF, if_neg (fun hh => h hh.symm), ih1, ih2, ih3]
      simp only [Nat.min_def]
      split_ifs <;> omega

/- ### Correctness of the rolling-row dynamic program -/

/-- The segment of DP row `i` from column `j` on, with `count` further
columns: `[levWF i j, levWF i (j+1), ..., levWF i (j+count)]`. -/
def rowFrom (t1 t2 : List Char) (i j : Nat) : Nat → List Nat
  | 0 => [levWF t1 t2 i j]
  | count + 1 => levWF t1 t2 i j :: rowFrom t1 t2 i (j + 1) count

theorem rowFrom_getD (t1 t2 : List Char) (i : Nat) :
    ∀ count j k, k ≤ count → (rowFrom t1 t2 i j count).getD k 0 = levWF t1 t2 i (j + k) := by
  intro count
  induction count with
  | zero => intro j k hk; interval_cases k; simp [rowFrom]
  | succ n ih =>
      intro j k hk
      cases k with
      | zero => simp [rowFrom]
      | succ k =>
          have := ih (j + 1) k (by omega)
          simpa [rowFrom, Nat.add_assoc, Nat.add_comm 1 k] using this

theorem getD_of_drop_eq_cons {l : List Char} {j : Nat} {y : Char} {ys : List Char}
    (h : l.drop j = y :: ys) (d : Char) : l.getD j d = y ∧ l.drop (j + 1) = ys := by
  induction j generalizing l with
  | zero => simp at h; simp [h]
  | succ j ih =>
      cases l with
      | nil => simp at h
      | cons a l' =>
          simp only [List.drop_succ_cons] at h
          simpa [List.getD] using ih h

/-- Key invariant of the inner loop: fed character `c = t1[i]`, the previous
row segment from column `j`, and `lastValue = levWF (i+1) j`, `rowStep`
produces the row-`(i+1)` segment from column `j`. -/
theorem rowStep_go (t1 t2 : List Char) (c : Char) (i : Nat)
    (hc : t1.getD i 'a' = c) :
    ∀ (u : List Char) (j : Nat), t2.drop j = u →
      rowStep c (levWF t1 t2 (i + 1) j) u (rowFrom t1 t2 i j u.length) =
      rowFrom t1 t2 (i + 1) j u.length := by
  intro u
  induction u with
  | nil => intro j _; simp [rowStep, rowFrom]
  | cons y ys ih =>
      intro j hdrop
      obtain ⟨hy, hdrop'⟩ := getD_of_drop_eq_cons hdrop 'a'
      have hcell : (if c = y then levWF t1 t2 i j
          else Nat.min (Nat.min (levWF t1 t2 i j) (levWF t1 t2 (i + 1) j))
            (levWF t1 t2 i (j + 1)) + 1) = levWF t1 t2 (i + 1) (j + 1) := by
        rw [levWF, hc, hy]
        by_cases hcy : c = y
        · rw [if_pos hcy, if_pos hcy]
        · rw [if_neg hcy, if_neg hcy]
          simp only [Nat.min_def]
          split_ifs <;> omega
      cases ys with
      | nil =>
          simp only [List.length_cons, List.length_nil, rowFrom, rowStep]
          rw [hcell]
      | cons z zs =>
          simp only [List.length_cons, rowFrom, rowStep]
          rw [hcell]
          have := ih (j + 1) hdrop'
          simp only [List.length_cons, rowFrom] at this
          rw [this]

/-- Iterating the outer loop from row `m` (having already processed the
first `m` characters of `t1`) to the final row. -/
theorem distRows_go (t1 t2 : List Char) :
    ∀ (v : List Char) (m : Nat), t1.drop m = v → m ≤ t1.length →
      distRows t2 v (m + 1) (rowFrom t1 t2 m 0 t2.length) =
      rowFrom t1 t2 t1.length 0 t2.length := by
  intro v
  induction v with
  | nil =>
      intro m hm hle
      have hge : t1.length ≤ m := List.drop_eq_nil_iff.mp hm
      have : m = t1.length := le_antisymm hle hge
      subst this
      simp [distRows]
  | cons c cs ih =>
      intro m hm hle
      obtain ⟨hc, hm'⟩ := getD_of_drop_eq_cons hm 'a'
      have hstep : rowStep c (m + 1) t2 (rowFrom t1 t2 m 0 t2.length) =
          rowFrom t1 t2 (m + 1) 0 t2.length := by
        have h0 : levWF t1 t2 (m + 1) 0 = m + 1 := levWF_zero_right t1 t2 (m + 1)
        have := rowStep_go t1 t2 c m hc t2 0 (by simp)
        rw [h0] at this
        exact this
      have hlt : m < t1.length := by
        have := congrArg List.length hm
        simp [List.length_drop] at this
        omega
      simp only [distRows, hstep]
      exact ih (m + 1) hm' hlt

theorem rowFrom_zero (t1 t2 : List Char) :
    ∀ count j, rowFrom t1 t2 0 j count = List.range' j (count + 1) := by
  intro count
  induction count with
  | zero => intro j; simp [rowFrom, levWF_zero_left, List.range']
  | succ n ih =>
      intro j
      simp [rowFrom, levWF_zero_left, List.range'_succ, ih]

/-- The rolling-row dynamic program of the source computes exactly the
Wagner-Fischer Levenshtein distance of the lowercased inputs. -/
theorem editDistance_eq (s1 s2 : JStr) :
    editDistance s1 s2 = levWF (lowerStr s1) (lowerStr s2) s1.length s2.length := by
  have hrange : List.range ((lowerStr s2).length + 1) =
      rowFrom (lowerStr s1) (lowerStr s2) 0 0 (lowerStr s2).length := by
    rw [rowFrom_zero, List.range_eq_range']
  have hrun := distRows_go (lowerStr s1) (lowerStr s2) (lowerStr s1) 0 (by simp) (Nat.zero_le _)
  have hlen1 : (lowerStr s1).length = s1.length := by simp [lowerStr]
  have hlen2 : (lowerStr s2).length = s2.length := by simp [lowerStr]
  calc editDistance s1 s2
      = (distRows (lowerStr s2) (lowerStr s1) 1
          (List.range ((lowerStr s2).length + 1))).getD (lowerStr s2).length 0 := rfl
    _ = (rowFrom (lowerStr s1) (lowerStr s2) (lowerStr s1).length 0
          (lowerStr s2).length).getD (lowerStr s2).length 0 := by
          rw [hrange]
          exact congrArg (fun l => l.getD (lowerStr s2).length 0) (hrun)
    _ = levWF (lowerStr s1) (lowerStr s2) (lowerStr s1).length (lowerStr s2).length := by
          rw [rowFrom_getD _ _ _ _ _ _ (le_refl _)]
          simp
    _ = levWF (lowerStr s1) (lowerStr s2) s1.length s2.length := by rw [hlen1, hlen2]

theorem editDistance_le (s1 s2 : JStr) :
    editDistance s1 s2 ≤ Nat.max s1.length s2.length := by
  rw [editDistance_eq]
  exact levWF_le_max (lowerStr s1) (lowerStr s2) s1.length s2.length

/-- On two non-empty strings, `similarity` computes the normalized
Levenshtein similarity of the LOWERCASED inputs. -/
theorem similarity_formula (a b : JStr) (ha : a ≠ []) (hb : b ≠ []) :
    similarity a b =
      ((Nat.max a.length b.length : ℚ) -
        (levWF (lowerStr a) (lowerStr b) a.length b.length : ℚ)) /
      (Nat.max a.length b.length : ℚ) := by
  have ha' : a.isEmpty = false := by simp [List.isEmpty_iff, ha]
  have hb' : b.isEmpty = false := by simp [List.isEmpty_iff, hb]
  by_cases hlt : b.length < a.length
  · have hmax : Nat.max a.length b.length = a.length := Nat.max_eq_left (le_of_lt hlt)
    simp only [similarity, ha', hb', Bool.or_self, Bool.false_or, if_pos hlt,
      Bool.false_eq_true, if_false]
    rw [if_neg (by simpa [List.length_eq_zero] using ha), editDistance_eq, hmax]
  · have hle : a.length ≤ b.length := le_of_not_lt hlt
    have hmax : Nat.max a.length b.length = b.length := Nat.max_eq_right hle
    simp only [similarity, ha', hb', Bool.or_self, Bool.false_or, if_neg hlt,
      Bool.false_eq_true, if_false]
    rw [if_neg (by simpa [List.length_eq_zero] using hb), editDistance_eq, hmax,
      levWF_symm]

theorem similarity_nonneg (a b : JStr) : 0 ≤ similarity a b := by
  by_cases h : a.isEmpty || b.isEmpty
  · simp [similarity, h]
  · simp only [similarity, h, Bool.false_eq_true, if_false]
    by_cases h0 : (if b.length < a.length then a else b).length = 0
    · rw [if_pos h0]; norm_num
    · rw [if_neg h0]
      apply div_nonneg _ (by positivity)
      have hd : editDistance (if b.length < a.length then a else b)
          (if b.length < a.length then b else a) ≤
          (if b.length < a.length then a else b).length := by
        refine le_trans (editDistance_le _ _) ?_
        by_cases hlt : b.length < a.length <;> simp [hlt] <;> omega
      have := (Nat.cast_le (α := ℚ)).mpr hd
      linarith

theorem similarity_le_one (a b : JStr) : similarity a b ≤ 1 := by
  by_cases h : a.isEmpty || b.isEmpty
  · simp [similarity, h]
  · simp only [similarity, h, Bool.false_eq_true, if_false]
    by_cases h0 : (if b.length < a.length then a else b).length = 0
    · rw [if_pos h0]
    · rw [if_neg h0]
      rw [div_le_one (by positivity)]
      have : (0 : ℚ) ≤ (editDistance (if b.length < a.length then a else b)
          (if b.length < a.length then b else a) : ℚ) := by positivity
      linarith

/- ### The Paper record

A single record shape models every paper/metadata object the scripts build
(JS objects are duck-typed; each producer populates a subset of these
fields, all consumers test presence/truthiness before use).  `none`/`[]`
model an absent field. -/

structure Paper where
  url : Option JStr := none
  type : Option JStr := none
  error : Option JStr := none
  title : Option JStr := none
  authors : List JStr := []
  date : Option JStr := none
  dateFormatted : Option JStr := none
  year : Option JStr := none
  month : Option JStr := none
  day : Option JStr := none
  journal : Option JStr := none
  doi : Option JStr := none
  abstract : Option JStr := none
  pmid : Option JStr := none
  category : Option JStr := none
  version : Option JStr := none
  source : Option JStr := none
  tags : List JStr := []
  duplicateSource : Option JStr := none
  exaTitle : Option JStr := none
  exaPublishedDate : Option JStr := none
  deriving DecidableEq, Repr

/- ### deduplicatePapers

The repository file contains two versions of `deduplicatePapers`: the
triple-hybrid script (lines 332-381, with a prefer-PubMed replacement rule)
and the multi-topic script (lines 1115-1150, plain discard).  We embed both:
`deduplicatePapers` for the first, `deduplicatePapersMT` for the second. -/

/-- Keys of the `seen` map: `doi:<...>` and `title:<...>` string keys of the
source, as a tagged sum. -/
inductive SKey where
  | doi (d : JStr)
  | title (t : JStr)
  deriving DecidableEq, Repr

/-- Accumulator state of the dedup loop: the insertion-ordered `seen` map
(JS `Map` preserves insertion order, which the title-similarity scan relies
on) paired with the `unique` output array. -/
structure DState where
  seen : List (SKey × Paper)
  unique : List Paper

/-- `seen.get(k)` - first binding of `k` in insertion order. -/
def mapGet (m : List (SKey × Paper)) (k : SKey) : Option Paper :=
  (m.find? (fun kv => decide (kv.1 = k))).map (fun kv => kv.2)

/-- `seen.set(k, v)` - update in place if the key is bound, else append. -/
def mapSet (m : List (SKey × Paper)) (k : SKey) (v : Paper) : List (SKey × Paper) :=
  if m.any (fun kv => decide (kv.1 = k)) then
    m.map (fun kv => if kv.1 = k then (k, v) else kv)
  else m ++ [(k, v)]

/-- `seen.delete(k)`. -/
def mapDelete (m : List (SKey × Paper)) (k : SKey) : List (SKey × Paper) :=
  m.filter (fun kv => decide (¬kv.1 = k))

/-- `unique[idx] = v` after `idx = unique.findIndex(p => p === existing)`:
replace the first occurrence (object identity is modelled by structural
equality, which coincides with it here: distinct candidate objects that are
structurally equal can never both be reachable as `existing`), leaving the
array untouched when `findIndex` returns `-1`. -/
def replaceFirst : List Paper → Paper → Paper → List Paper
  | [], _, _ => []
  | x :: xs, old, new => if x = old then new :: xs else x :: replaceFirst xs old new

/-- `paper.title?.toLowerCase().replace(/[^a-z0-9]/g, '')`. -/
def normalizeTitle (t : JStr) : JStr :=
  (lowerStr t).filter (fun c =>
    (decide ('a' ≤ c) && decide (c ≤ 'z')) || (decide ('0' ≤ c) && decide (c ≤ '9')))

/-- One iteration of the `for (const [key, existing] of seen.entries())`
scan: a hit is an entry whose key is a `title:` key with similarity
strictly above 0.9 to the candidate's normalized title. -/
def fuzzyHit (n : JStr) (kv : SKey × Paper) : Bool :=
  match kv.1 with
  | SKey.title t => decide ((9 : ℚ) / 10 < similarity n t)
  | SKey.doi _ => false

/-- The pubmed-preference test of lines 343 and 362:
`paper.source === 'pubmed' && existing.source !== 'pubmed'`. -/
def prefersPubmed (p existing : Paper) : Prop :=
  p.source = some ("pubmed".data) ∧ ¬existing.source = some ("pubmed".data)

instance (p existing : Paper) : Decidable (prefersPubmed p existing) := by
  unfold prefersPubmed; infer_instance

/-- Title-similarity tier of the triple-hybrid `deduplicatePapers`
(lines 353-375). -/
def titleTier (st : DState) (p : Paper) : DState :=
  match p.title with
  | none => { st with unique := st.unique ++ [p] }
  | some t =>
    let n := normalizeTitle t
    if 20 < n.length then
      match st.seen.find? (fuzzyHit n) with
      | some (SKey.title tk, existing) =>
          if prefersPubmed p existing then
            { seen := mapSet (mapDelete st.seen (SKey.title tk)) (SKey.title n) p,
              unique := replaceFirst st.unique existing
                { p with duplicateSource := existing.source } }
          else st
      | _ =>
          { seen := mapSet st.seen (SKey.title n) p, unique := st.unique ++ [p] }
    else { st with unique := st.unique ++ [p] }

/-- One iteration of the triple-hybrid `deduplicatePapers` loop
(lines 336-377). -/
def dedupStep (st : DState) (p : Paper) : DState :=
  if truthy p.doi then
    let k := SKey.doi (lowerStr (p.doi.getD []))
    match mapGet st.seen k with
    | some existing =>
        if prefersPubmed p existing then
          { seen := mapSet st.seen k p,
            unique := replaceFirst st.unique existing
              { p with duplicateSource := existing.source } }
        else st
    | none => titleTier { st with seen := mapSet st.seen k p } p
  else titleTier st p

/-- `deduplicatePapers` of the triple-hybrid script (lines 332-381). -/
def deduplicatePapers (papers : List Paper) : List Paper :=
  (papers.foldl dedupStep ⟨[], []⟩).unique

/-- Title-similarity tier of the multi-topic `deduplicatePapers`
(lines 1129-1144). -/
def titleTierMT (st : DState) (p : Paper) : DState :=
  match p.title with
  | none => { st with unique := st.unique ++ [p] }
  | some t =>
    let n := normalizeTitle t
    if 20 < n.length then
      if st.seen.any (fuzzyHit n) then st
      else { seen := mapSet st.seen (SKey.title n) p, unique := st.unique ++ [p] }
    else { st with unique := st.unique ++ [p] }

/-- One iteration of the multi-topic `deduplicatePapers` loop
(lines 1119-1147). -/
def dedupStepMT (st : DState) (p : Paper) : DState :=
  if truthy p.doi then
    let k := SKey.doi (lowerStr (p.doi.getD []))
    if (mapGet st.seen k).isSome then st
    else titleTierMT { st with seen := mapSet st.seen k p } p
  else titleTierMT st p

/-- `deduplicatePapers` of the multi-topic script (lines 1115-1150). -/
def deduplicatePapersMT (papers : List Paper) : List Paper :=
  (papers.foldl dedupStepMT ⟨[], []⟩).unique

/- ### The identifier invariant of deduplication -/

/-- Two records do not both carry the same (case-insensitively compared)
DOI. -/
def DoiDistinct (p q : Paper) : Prop :=
  truthy p.doi = true → truthy q.doi = true →
    lowerStr (p.doi.getD []) ≠ lowerStr (q.doi.getD [])

/-- The `doi:` key a record registers under. -/
def doiKeyOf (p : Paper) : SKey := SKey.doi (lowerStr (p.doi.getD []))

def keysOf (m : List (SKey × Paper)) : List SKey := m.map Prod.fst

theorem keysOf_mapSet_superset {m : List (SKey × Paper)} {k : SKey} {v : Paper}
    {k' : SKey} (h : k' ∈ keysOf m) : k' ∈ keysOf (mapSet m k v) := by
  unfold mapSet
  split
  · unfold keysOf at h ⊢
    obtain ⟨kv, hkv, rfl⟩ := List.mem_map.mp h
    refine List.mem_map.mpr ⟨if kv.1 = k then (k, v) else kv, List.mem_map.mpr ⟨kv, hkv, rfl⟩, ?_⟩
    by_cases hk : kv.1 = k <;> simp [hk]
  · unfold keysOf at h ⊢
    simp only [List.map_append, List.mem_append]
    exact Or.inl h

theorem keysOf_mapSet_self (m : List (SKey × Paper)) (k : SKey) (v : Paper) :
    k ∈ keysOf (mapSet m k v) := by
  unfold mapSet
  split
  · rename_i hany
    obtain ⟨kv, hkv, hpk⟩ := List.any_eq_true.mp hany
    have hk : kv.1 = k := of_decide_eq_true hpk
    unfold keysOf
    exact List.mem_map.mpr ⟨(k, v), List.mem_map.mpr ⟨kv, hkv, by simp [hk]⟩, rfl⟩
  · unfold keysOf
    simp

theorem keysOf_mapDelete {m : List (SKey × Paper)} {k k' : SKey}
    (h : k' ∈ keysOf m) (hne : k' ≠ k) : k' ∈ keysOf (mapDelete m k) := by
  unfold keysOf at h ⊢
  obtain ⟨kv, hkv, rfl⟩ := List.mem_map.mp h
  refine List.mem_map.mpr ⟨kv, ?_, rfl⟩
  unfold mapDelete
  exact List.mem_filter.mpr ⟨hkv, by simpa using hne⟩

theorem mapGet_none_iff {m : List (SKey × Paper)} {k : SKey} :
    mapGet m k = none ↔ k ∉ keysOf m := by
  unfold mapGet keysOf
  simp only [Option.map_eq_none', List.find?_eq_none, List.mem_map, decide_eq_true_eq]
  constructor
  · rintro h ⟨kv, hkv, rfl⟩
    exact h kv hkv rfl
  · intro h kv hkv hk
    exact h ⟨kv, hkv, hk⟩

theorem mapGet_mem {m : List (SKey × Paper)} {k : SKey} {v : Paper}
    (h : mapGet m k = some v) : (k, v) ∈ m := by
  unfold mapGet at h
  obtain ⟨kv, hfind, rfl⟩ := Option.map_eq_some'.mp h
  have hmem := List.mem_of_find?_eq_some hfind
  have hk : kv.1 = k := by
    have hpk := List.find?_some hfind
    simpa using hpk
  have : kv = (k, kv.2) := by
    cases kv
    simp_all
  rwa [← this]

theorem mem_mapSet {m : List (SKey × Paper)} {k : SKey} {v : Paper}
    {kv : SKey × Paper} (h : kv ∈ mapSet m k v) : kv ∈ m ∨ kv = (k, v) := by
  unfold mapSet at h
  split at h
  · obtain ⟨kv₀, hkv₀, rfl⟩ := List.mem_map.mp h
    by_cases hk : kv₀.1 = k
    · right; simp [hk]
    · left; simpa [hk] using hkv₀
  · rcases List.mem_append.mp h with h | h
    · exact Or.inl h
    · right; simpa using h

theorem mem_mapDelete {m : List (SKey × Paper)} {k : SKey} {kv : SKey × Paper}
    (h : kv ∈ mapDelete m k) : kv ∈ m :=
  (List.mem_filter.mp h).1

theorem mem_replaceFirst {l : List Paper} {old new q : Paper}
    (h : q ∈ replaceFirst l old new) : q ∈ l ∨ q = new := by
  induction l with
  | nil => simp [replaceFirst] at h
  | cons x xs ih =>
      unfold replaceFirst at h
      split at h
      · rcases List.mem_cons.mp h with h | h
        · exact Or.inr h
        · exact Or.inl (List.mem_cons_of_mem _ h)
      · rcases List.mem_cons.mp h with h | h
        · exact Or.inl (h ▸ List.mem_cons_self _ _)
        · rcases ih h with h | h
          · exact Or.inl (List.mem_cons_of_mem _ h)
          · exact Or.inr h

theorem replaceFirst_of_not_mem {l : List Paper} {old new : Paper}
    (h : old ∉ l) : replaceFirst l old new = l := by
  induction l with
  | nil => rfl
  | cons x xs ih =>
      unfold replaceFirst
      rw [if_neg (fun hx => h (by rw [← hx]; exact List.mem_cons_self _ _)),
        ih (fun hx => h (List.mem_cons_of_mem _ hx))]

/-- Replacing an occurrence of `old` by `new` preserves pairwise `R` as
long as `new` relates to everything the way required. -/
theorem pairwise_replaceFirst_of_all {R : Paper → Paper → Prop} {l : List Paper}
    {old new : Paper} (hp : l.Pairwise R)
    (h1 : ∀ x ∈ l, R x new) (h2 : ∀ x ∈ l, R new x) :
    (replaceFirst l old new).Pairwise R := by
  induction l with
  | nil => exact List.Pairwise.nil
  | cons x xs ih =>
      rw [List.pairwise_cons] at hp
      unfold replaceFirst
      by_cases hx : x = old
      · rw [if_pos hx, List.pairwise_cons]
        exact ⟨fun y hy => h2 y (List.mem_cons_of_mem _ hy), hp.2⟩
      · rw [if_neg hx, List.pairwise_cons]
        refine ⟨fun y hy => ?_, ih hp.2 (fun z hz => h1 z (List.mem_cons_of_mem _ hz))
          (fun z hz => h2 z (List.mem_cons_of_mem _ hz))⟩
        rcases mem_replaceFirst hy with hy | rfl
        · exact hp.1 y hy
        · exact h1 x (List.mem_cons_self _ _)

/-- Replacing an occurrence of `old` by `new` preserves pairwise `R` when
`new` inherits all of `old`'s relations. -/
theorem pairwise_replaceFirst_of_transfer {R : Paper → Paper → Prop} {l : List Paper}
    {old new : Paper} (hp : l.Pairwise R)
    (h1 : ∀ x, R x old → R x new) (h2 : ∀ x, R old x → R new x) :
    (replaceFirst l old new).Pairwise R := by
  induction l with
  | nil => exact List.Pairwise.nil
  | cons x xs ih =>
      rw [List.pairwise_cons] at hp
      unfold replaceFirst
      by_cases hx : x = old
      · rw [if_pos hx, List.pairwise_cons]
        refine ⟨fun y hy => h2 y ?_, hp.2⟩
        rw [← hx]
        exact hp.1 y hy
      · rw [if_neg hx, List.pairwise_cons]
        refine ⟨fun y hy => ?_, ih hp.2⟩
        rcases mem_replaceFirst hy with hy | rfl
        · exact hp.1 y hy
        · by_cases hmem : old ∈ xs
          · exact h1 x (hp.1 old hmem)
          · rw [replaceFirst_of_not_mem hmem] at hy
            exact hp.1 _ hy

theorem doiDistinct_symm {p q : Paper} (h : DoiDistinct p q) : DoiDistinct q p :=
  fun h1 h2 => (h h2 h1).symm

/-- Every `doi:`-keyed binding of the seen map holds a record whose own
(lowercased) DOI is the key. -/
def SeenDoiOK (m : List (SKey × Paper)) : Prop :=
  ∀ kv ∈ m, ∀ d, kv.1 = SKey.doi d →
    truthy kv.2.doi = true ∧ lowerStr (kv.2.doi.getD []) = d

theorem seenDoiOK_mapDelete {m : List (SKey × Paper)} {k : SKey}
    (h : SeenDoiOK m) : SeenDoiOK (mapDelete m k) :=
  fun kv hkv => h kv (mem_mapDelete hkv)

theorem seenDoiOK_mapSet_title {m : List (SKey × Paper)} {n : JStr} {p : Paper}
    (h : SeenDoiOK m) : SeenDoiOK (mapSet m (SKey.title n) p) := by
  intro kv hkv d hk
  rcases mem_mapSet hkv with hkv | rfl
  · exact h kv hkv d hk
  · simp at hk

theorem seenDoiOK_mapSet_doi {m : List (SKey × Paper)} {p : Paper}
    (h : SeenDoiOK m) (hp : truthy p.doi = true) :
    SeenDoiOK (mapSet m (SKey.doi (lowerStr (p.doi.getD []))) p) := by
  intro kv hkv d hk
  rcases mem_mapSet hkv with hkv | rfl
  · exact h kv hkv d hk
  · simp only at hk
    obtain rfl : lowerStr (p.doi.getD []) = d := by
      injection hk
    exact ⟨hp, rfl⟩

/-- The invariant maintained by the dedup fold: every retained record with a
DOI has its `doi:` key registered, retained DOIs are pairwise distinct, and
`doi:` bindings are consistent. -/
structure DInv (st : DState) : Prop where
  uniqKeys : ∀ q ∈ st.unique, truthy q.doi = true → doiKeyOf q ∈ keysOf st.seen
  pair : st.unique.Pairwise DoiDistinct
  seenDoi : SeenDoiOK st.seen

theorem DInv_push {st : DState} {p : Paper} {seen' : List (SKey × Paper)}
    (hInv : DInv st)
    (hfresh : ∀ q ∈ st.unique, DoiDistinct q p)
    (hkeys : ∀ k ∈ keysOf st.seen, k ∈ keysOf seen')
    (hkey : truthy p.doi = true → doiKeyOf p ∈ keysOf seen')
    (hseen : SeenDoiOK seen') :
    DInv ⟨seen', st.unique ++ [p]⟩ := by
  refine ⟨?_, ?_, hseen⟩
  · intro q hq hdq
    rcases List.mem_append.mp hq with hq | hq
    · exact hkeys _ (hInv.uniqKeys q hq hdq)
    · obtain rfl : q = p := by simpa using hq
      exact hkey hdq
  · rw [List.pairwise_append]
    refine ⟨hInv.pair, List.pairwise_singleton _ _, ?_⟩
    intro a ha b hb
    obtain rfl : b = p := by simpa using hb
    exact hfresh a ha

theorem titleTier_inv (st : DState) (p : Paper) (hInv : DInv st)
    (hfresh : ∀ q ∈ st.unique, DoiDistinct q p)
    (hkey : truthy p.doi = true → doiKeyOf p ∈ keysOf st.seen) :
    DInv (titleTier st p) := by
  unfold titleTier
  cases htp : p.title with
  | none => exact DInv_push hInv hfresh (fun k hk => hk) hkey hInv.seenDoi
  | some t =>
      dsimp only
      by_cases hn : 20 < (normalizeTitle t).length
      · rw [if_pos hn]
        cases hfind : st.seen.find? (fuzzyHit (normalizeTitle t)) with
        | none =>
            exact DInv_push hInv hfresh (fun k hk => keysOf_mapSet_superset hk)
              (fun hd => keysOf_mapSet_superset (hkey hd))
              (seenDoiOK_mapSet_title hInv.seenDoi)
        | some kv =>
            obtain ⟨k0, ex⟩ := kv
            cases k0 with
            | doi d =>
                exact DInv_push hInv hfresh (fun k hk => keysOf_mapSet_superset hk)
                  (fun hd => keysOf_mapSet_superset (hkey hd))
                  (seenDoiOK_mapSet_title hInv.seenDoi)
            | title tk =>
                dsimp only
                by_cases hpm : prefersPubmed p ex
                · rw [if_pos hpm]
                  refine ⟨?_, ?_, ?_⟩
                  · intro q hq hdq
                    rcases mem_replaceFirst hq with hq | rfl
                    · have hk := hInv.uniqKeys q hq hdq
                      have hne : doiKeyOf q ≠ SKey.title tk := by simp [doiKeyOf]
                      exact keysOf_mapSet_superset (keysOf_mapDelete hk hne)
                    · have hpd : truthy p.doi = true := hdq
                      have hne : doiKeyOf p ≠ SKey.title tk := by simp [doiKeyOf]
                      exact keysOf_mapSet_superset (keysOf_mapDelete (hkey hpd) hne)
                  · exact pairwise_replaceFirst_of_all hInv.pair
                      (fun x hx => hfresh x hx)
                      (fun x hx => doiDistinct_symm (hfresh x hx))
                  · exact seenDoiOK_mapSet_title (seenDoiOK_mapDelete hInv.seenDoi)
                · rw [if_neg hpm]
                  exact hInv
      · rw [if_neg hn]
        exact DInv_push hInv hfresh (fun k hk => hk) hkey hInv.seenDoi

theorem dedupStep_inv (st : DState) (p : Paper) (hInv : DInv st) :
    DInv (dedupStep st p) := by
  unfold dedupStep
  split
  · rename_i hd
    dsimp only
    cases hget : mapGet st.seen (SKey.doi (lowerStr (p.doi.getD []))) with
    | some ex =>
        dsimp only
        by_cases hpm : prefersPubmed p ex
        · rw [if_pos hpm]
          have hmem := mapGet_mem hget
          have hex := hInv.seenDoi _ hmem _ rfl
          refine ⟨?_, ?_, ?_⟩
          · intro q hq hdq
            rcases mem_replaceFirst hq with hq | rfl
            · exact keysOf_mapSet_superset (hInv.uniqKeys q hq hdq)
            · exact keysOf_mapSet_self _ _ _
          · refine pairwise_replaceFirst_of_transfer hInv.pair ?_ ?_
            · intro x hx htx htnew
              have := hx htx hex.1
              rw [hex.2] at this
              exact this
            · intro x hx htnew htx
              have := hx hex.1 htx
              rw [hex.2] at this
              exact this
          · exact seenDoiOK_mapSet_doi hInv.seenDoi hd
        · rw [if_neg hpm]
          exact hInv
    | none =>
        have hnotin := mapGet_none_iff.mp hget
        refine titleTier_inv _ p ⟨?_, hInv.pair, seenDoiOK_mapSet_doi hInv.seenDoi hd⟩ ?_ ?_
        · intro q hq hdq
          exact keysOf_mapSet_superset (hInv.uniqKeys q hq hdq)
        · intro q hq htq htp heq
          exact hnotin (by
            have := hInv.uniqKeys q hq htq
            unfold doiKeyOf at this
            rw [heq] at this
            exact this)
        · intro _
          exact keysOf_mapSet_self _ _ _
  · rename_i hd
    refine titleTier_inv _ p hInv ?_ ?_
    · intro q hq _ htp
      exact absurd htp hd
    · intro htp
      exact absurd htp hd

theorem foldl_dedupStep_inv (ps : List Paper) :
    ∀ st : DState, DInv st → DInv (ps.foldl dedupStep st) := by
  induction ps with
  | nil => intro st h; exact h
  | cons p ps ih => intro st h; exact ih _ (dedupStep_inv st p h)

theorem titleTierMT_inv (st : DState) (p : Paper) (hInv : DInv st)
    (hfresh : ∀ q ∈ st.unique, DoiDistinct q p)
    (hkey : truthy p.doi = true → doiKeyOf p ∈ keysOf st.seen) :
    DInv (titleTierMT st p) := by
  unfold titleTierMT
  cases htp : p.title with
  | none => exact DInv_push hInv hfresh (fun k hk => hk) hkey hInv.seenDoi
  | some t =>
      dsimp only
      by_cases hn : 20 < (normalizeTitle t).length
      · rw [if_pos hn]
        by_cases hany : st.seen.any (fuzzyHit (normalizeTitle t))
        · rw [if_pos hany]
          exact hInv
        · rw [if_neg hany]
          exact DInv_push hInv hfresh (fun k hk => keysOf_mapSet_superset hk)
            (fun hd => keysOf_mapSet_superset (hkey hd))
            (seenDoiOK_mapSet_title hInv.seenDoi)
      · rw [if_neg hn]
        exact DInv_push hInv hfresh (fun k hk => hk) hkey hInv.seenDoi

theorem dedupStepMT_inv (st : DState) (p : Paper) (hInv : DInv st) :
    DInv (dedupStepMT st p) := by
  unfold dedupStepMT
  split
  · rename_i hd
    dsimp only
    cases hget : mapGet st.seen (SKey.doi (lowerStr (p.doi.getD []))) with
    | some ex => simp only [hget, Option.isSome_some, if_true]; exact hInv
    | none =>
        simp only [hget, Option.isSome_none, Bool.false_eq_true, if_false]
        have hnotin := mapGet_none_iff.mp hget
        refine titleTierMT_inv _ p ⟨?_, hInv.pair, seenDoiOK_mapSet_doi hInv.seenDoi hd⟩ ?_ ?_
        · intro q hq hdq
          exact keysOf_mapSet_superset (hInv.uniqKeys q hq hdq)
        · intro q hq htq htp heq
          exact hnotin (by
            have := hInv.uniqKeys q hq htq
            unfold doiKeyOf at this
            rw [heq] at this
            exact this)
        · intro _
          exact keysOf_mapSet_self _ _ _
  · rename_i hd
    refine titleTierMT_inv _ p hInv ?_ ?_
    · intro q hq _ htp
      exact absurd htp hd
    · intro htp
      exact absurd htp hd

theorem foldl_dedupStepMT_inv (ps : List Paper) :
    ∀ st : DState, DInv st → DInv (ps.foldl dedupStepMT st) := by
  induction ps with
  | nil => intro st h; exact h
  | cons p ps ih => intro st h; exact ih _ (dedupStepMT_inv st p h)

theorem DInv_init : DInv ⟨[], []⟩ :=
  ⟨fun q hq => absurd hq (List.not_mem_nil q), List.Pairwise.nil,
    fun kv hkv => absurd hkv (List.not_mem_nil kv)⟩

/-- C1.  Deduplicator identifier invariant: in the output of either version
of `deduplicatePapers`, no two retained records that both carry a DOI have
equal DOIs under case-insensitive comparison. -/
theorem dedup_identifier_invariant (papers : List Paper) :
    (deduplicatePapers papers).Pairwise DoiDistinct ∧
    (deduplicatePapersMT papers).Pairwise DoiDistinct :=
  ⟨(foldl_dedupStep_inv papers _ DInv_init).pair,
    (foldl_dedupStepMT_inv papers _ DInv_init).pair⟩

/- ### Where output records come from -/

theorem titleTier_unique_mem {st : DState} {p q : Paper}
    (h : q ∈ (titleTier st p).unique) : q ∈ st.unique ∨ q.tags = p.tags := by
  unfold titleTier at h
  cases htp : p.title with
  | none =>
      rw [htp] at h
      rcases List.mem_append.mp h with h | h
      · exact Or.inl h
      · obtain rfl : q = p := by simpa using h
        exact Or.inr rfl
  | some t =>
      rw [htp] at h
      dsimp only at h
      by_cases hn : 20 < (normalizeTitle t).length
      · rw [if_pos hn] at h
        cases hfind : st.seen.find? (fuzzyHit (normalizeTitle t)) with
        | none =>
            rw [hfind] at h
            dsimp only at h
            rcases List.mem_append.mp h with h | h
            · exact Or.inl h
            · obtain rfl : q = p := by simpa using h
              exact Or.inr rfl
        | some kv =>
            rw [hfind] at h
            obtain ⟨k0, ex⟩ := kv
            cases k0 with
            | doi d =>
                dsimp only at h
                rcases List.mem_append.mp h with h | h
                · exact Or.inl h
                · obtain rfl : q = p := by simpa using h
                  exact Or.inr rfl
            | title tk =>
                dsimp only at h
                by_cases hpm : prefersPubmed p ex
                · rw [if_pos hpm] at h
                  rcases mem_replaceFirst h with h | rfl
                  · exact Or.inl h
                  · exact Or.inr rfl
                · rw [if_neg hpm] at h
                  exact Or.inl h
      · rw [if_neg hn] at h
        rcases List.mem_append.mp h with h | h
        · exact Or.inl h
        · obtain rfl : q = p := by simpa using h
          exact Or.inr rfl

theorem dedupStep_unique_mem {st : DState} {p q : Paper}
    (h : q ∈ (dedupStep st p).unique) : q ∈ st.unique ∨ q.tags = p.tags := by
  unfold dedupStep at h
  split at h
  · dsimp only at h
    cases hget : mapGet st.seen (SKey.doi (lowerStr (p.doi.getD []))) with
    | some ex =>
        rw [hget] at h
        dsimp only at h
        by_cases hpm : prefersPubmed p ex
        · rw [if_pos hpm] at h
          rcases mem_replaceFirst h with h | rfl
          · exact Or.inl h
          · exact Or.inr rfl
        · rw [if_neg hpm] at h
          exact Or.inl h
    | none =>
        rw [hget] at h
        dsimp only at h
        exact @titleTier_unique_mem
          ⟨mapSet st.seen (SKey.doi (lowerStr (p.doi.getD []))) p, st.unique⟩ p q h
  · exact titleTier_unique_mem h

theorem titleTierMT_unique_mem {st : DState} {p q : Paper}
    (h : q ∈ (titleTierMT st p).unique) : q ∈ st.unique ∨ q.tags = p.tags := by
  unfold titleTierMT at h
  cases htp : p.title with
  | none =>
      rw [htp] at h
      rcases List.mem_append.mp h with h | h
      · exact Or.inl h
      · obtain rfl : q = p := by simpa using h
        exact Or.inr rfl
  | some t =>
      rw [htp] at h
      dsimp only at h
      by_cases hn : 20 < (normalizeTitle t).length
      · rw [if_pos hn] at h
        by_cases hany : st.seen.any (fuzzyHit (normalizeTitle t))
        · rw [if_pos hany] at h
          exact Or.inl h
        · rw [if_neg hany] at h
          rcases List.mem_append.mp h with h | h
          · exact Or.inl h
          · obtain rfl : q = p := by simpa using h
            exact Or.inr rfl
      · rw [if_neg hn] at h
        rcases List.mem_append.mp h with h | h
        · exact Or.inl h
        · obtain rfl : q = p := by simpa using h
          exact Or.inr rfl

theorem dedupStepMT_unique_mem {st : DState} {p q : Paper}
    (h : q ∈ (dedupStepMT st p).unique) : q ∈ st.unique ∨ q.tags = p.tags := by
  unfold dedupStepMT at h
  split at h
  · dsimp only at h
    cases hget : mapGet st.seen (SKey.doi (lowerStr (p.doi.getD []))) with
    | some ex =>
        rw [hget] at h
        simp only [Option.isSome_some, if_true] at h
        exact Or.inl h
    | none =>
        rw [hget] at h
        simp only [Option.isSome_none, Bool.false_eq_true, if_false] at h
        exact @titleTierMT_unique_mem
          ⟨mapSet st.seen (SKey.doi (lowerStr (p.doi.getD []))) p, st.unique⟩ p q h
  · exact titleTierMT_unique_mem h

theorem foldl_dedupStep_tags (ps : List Paper) :
    ∀ (st : DState) (q : Paper), q ∈ (ps.foldl dedupStep st).unique →
      q ∈ st.unique ∨ ∃ p ∈ ps, q.tags = p.tags := by
  induction ps with
  | nil => intro st q h; exact Or.inl h
  | cons p ps ih =>
      intro st q h
      rcases ih (dedupStep st p) q h with h | ⟨p', hp', ht⟩
      · rcases dedupStep_unique_mem h with h | h
        · exact Or.inl h
        · exact Or.inr ⟨p, List.mem_cons_self _ _, h⟩
      · exact Or.inr ⟨p', List.mem_cons_of_mem _ hp', ht⟩

theorem foldl_dedupStepMT_tags (ps : List Paper) :
    ∀ (st : DState) (q : Paper), q ∈ (ps.foldl dedupStepMT st).unique →
      q ∈ st.unique ∨ ∃ p ∈ ps, q.tags = p.tags := by
  induction ps with
  | nil => intro st q h; exact Or.inl h
  | cons p ps ih =>
      intro st q h
      rcases ih (dedupStepMT st p) q h with h | ⟨p', hp', ht⟩
      · rcases dedupStepMT_unique_mem h with h | h
        · exact Or.inl h
        · exact Or.inr ⟨p, List.mem_cons_self _ _, h⟩
      · exact Or.inr ⟨p', List.mem_cons_of_mem _ hp', ht⟩

/- ### Evaluation helpers for small symbolic runs -/

theorem dedupStep_no_doi (st : DState) (p : Paper) (h : truthy p.doi = false) :
    dedupStep st p = titleTier st p := by
  unfold dedupStep
  rw [if_neg (by simp [h])]

theorem dedupStepMT_no_doi (st : DState) (p : Paper) (h : truthy p.doi = false) :
    dedupStepMT st p = titleTierMT st p := by
  unfold dedupStepMT
  rw [if_neg (by simp [h])]

theorem titleTier_push (st : DState) (p : Paper) (t : JStr) (ht : p.title = some t)
    (hn : ¬20 < (normalizeTitle t).length) :
    titleTier st p = { st with unique := st.unique ++ [p] } := by
  unfold titleTier
  rw [ht]
  dsimp only
  rw [if_neg hn]

theorem titleTierMT_push (st : DState) (p : Paper) (t : JStr) (ht : p.title = some t)
    (hn : ¬20 < (normalizeTitle t).length) :
    titleTierMT st p = { st with unique := st.unique ++ [p] } := by
  unfold titleTierMT
  rw [ht]
  dsimp only
  rw [if_neg hn]

/-- Processing the first candidate, when it carries a DOI, always yields the
state whose seen map starts with its `doi:` binding and whose output is just
that candidate. -/
theorem dedupStep_init_shape (p1 : Paper) (h1 : truthy p1.doi = true) :
    ∃ rest, dedupStep ⟨[], []⟩ p1 =
      ⟨(SKey.doi (lowerStr (p1.doi.getD [])), p1) :: rest, [p1]⟩ := by
  unfold dedupStep
  rw [if_pos h1]
  dsimp only
  have hget : mapGet ([] : List (SKey × Paper))
      (SKey.doi (lowerStr (p1.doi.getD []))) = none := rfl
  rw [hget]
  dsimp only
  unfold titleTier
  cases htp : p1.title with
  | none => exact ⟨[], rfl⟩
  | some t =>
      dsimp only
      by_cases hn : 20 < (normalizeTitle t).length
      · rw [if_pos hn]
        have hfind : List.find? (fuzzyHit (normalizeTitle t))
            (mapSet [] (SKey.doi (lowerStr (p1.doi.getD []))) p1) = none := rfl
        rw [hfind]
        exact ⟨[(SKey.title (normalizeTitle t), p1)], rfl⟩
      · rw [if_neg hn]
        exact ⟨[], rfl⟩

/- ### Claim C2 -/

def tagPaperKept : Paper :=
  { doi := some ("10.1/x".data), source := some ("exa".data), tags := [("alpha".data)] }

def tagPaperDropped : Paper :=
  { doi := some ("10.1/X".data), source := some ("exa".data), tags := [("beta".data)] }

/-- C2 counterexample: two records with the same DOI and equal priority are
merged (the second is discarded), but the surviving record's tags are NOT
the union of both inputs' tags - the discarded record's tag `beta` is
lost. -/
theorem dedup_tags_union_counterexample :
    deduplicatePapers [tagPaperKept, tagPaperDropped] = [tagPaperKept] ∧
    ("beta".data) ∈ tagPaperDropped.tags ∧ ("beta".data) ∉ tagPaperKept.tags := by
  decide

/-- C2 (amended): the Deduplicator never merges tag sets.  Every record in
the output of either version of `deduplicatePapers` carries exactly the tags
field of some single input record (when a duplicate is discarded its tags
are dropped; a replacement keeps the replacing candidate's own tags). -/
theorem dedup_tags_from_single_input (papers : List Paper) (q : Paper) :
    (q ∈ deduplicatePapers papers → ∃ p ∈ papers, q.tags = p.tags) ∧
    (q ∈ deduplicatePapersMT papers → ∃ p ∈ papers, q.tags = p.tags) := by
  constructor
  · intro h
    rcases foldl_dedupStep_tags papers ⟨[], []⟩ q h with h | h
    · exact absurd h (List.not_mem_nil q)
    · exact h
  · intro h
    rcases foldl_dedupStepMT_tags papers ⟨[], []⟩ q h with h | h
    · exact absurd h (List.not_mem_nil q)
    · exact h

theorem dedup_tags_from_single_input_witness :
    tagPaperKept ∈ deduplicatePapers [tagPaperKept, tagPaperDropped] ∧
    ∃ p ∈ [tagPaperKept, tagPaperDropped], tagPaperKept.tags = p.tags :=
  ⟨by decide,
    (dedup_tags_from_single_input [tagPaperKept, tagPaperDropped] tagPaperKept).1 (by decide)⟩

/- ### Claim C3 -/

/-- C3 counterexample: at the concrete pair (uppercase A, lowercase a) the
code returns similarity 1, while the claimed formula - Levenshtein distance
of the arguments themselves, not of their lowercasings - yields 0: the code
lowercases before measuring edit distance. -/
theorem similarity_case_counterexample :
    similarity ("A".data) ("a".data) = 1 ∧
    ((Nat.max ("A".data).length ("a".data).length : ℚ) -
      (levWF ("A".data) ("a".data) ("A".data).length ("a".data).length : ℚ)) /
      (Nat.max ("A".data).length ("a".data).length : ℚ) = 0 := by
  constructor
  · have hf := similarity_formula ("A".data) ("a".data) (by decide) (by decide)
    have hl : levWF (lowerStr ("A".data)) (lowerStr ("a".data))
        ("A".data).length ("a".data).length = 0 := by
      show levWF ("a".data) ("a".data) 1 1 = 0
      simp [levWF]
    rw [hf, hl, show ("A".data).length = 1 from rfl, show ("a".data).length = 1 from rfl]
    norm_num
  · have h1 : levWF ("A".data) ("a".data) ("A".data).length ("a".data).length = 1 := by
      show levWF ("A".data) ("a".data) 1 1 = 1
      simp [levWF]
    rw [h1, show ("A".data).length = 1 from rfl, show ("a".data).length = 1 from rfl]
    norm_num

/-- C3 (amended): `similarity` is a pure function whose value always lies in
the closed interval from 0 to 1, and on every pair of non-empty strings it
equals the normalized Levenshtein similarity
(max - distance(lower a, lower b)) / max of the LOWERCASED inputs, with
`levWF` the standard Wagner-Fischer single-character-edit distance. -/
theorem similarity_normalized_levenshtein (a b : JStr) :
    (0 ≤ similarity a b ∧ similarity a b ≤ 1) ∧
    (a ≠ [] → b ≠ [] → similarity a b =
      ((Nat.max a.length b.length : ℚ) -
        (levWF (lowerStr a) (lowerStr b) a.length b.length : ℚ)) /
      (Nat.max a.length b.length : ℚ)) :=
  ⟨⟨similarity_nonneg a b, similarity_le_one a b⟩, similarity_formula a b⟩

theorem similarity_normalized_levenshtein_witness :
    (("ab".data : JStr) ≠ [] ∧ ("b".data : JStr) ≠ []) ∧
    similarity ("ab".data) ("b".data) =
      ((Nat.max ("ab".data).length ("b".data).length : ℚ) -
        (levWF (lowerStr ("ab".data)) (lowerStr ("b".data))
          ("ab".data).length ("b".data).length : ℚ)) /
      (Nat.max ("ab".data).length ("b".data).length : ℚ) :=
  ⟨⟨by decide, by decide⟩,
    (similarity_normalized_levenshtein ("ab".data) ("b".data)).2 (by decide) (by decide)⟩

/- ### Claim C4 -/

def exaFullPaper : Paper :=
  { doi := some ("10.5/full".data), title := some ("Phage Therapy".data),
    url := some ("https://journal.example/a".data),
    abstract := some ("A complete abstract.".data),
    authors := [("Ada Lovelace".data)], journal := some ("Journal of Phage".data),
    dateFormatted := some ("1 Jan 2025".data),
    source := some ("exa".data), tags := [("exa".data)] }

def pubmedSparsePaper : Paper :=
  { doi := some ("10.5/FULL".data), source := some ("pubmed".data) }

/-- C4 counterexample: a pubmed-sourced candidate that lacks title,
abstract, authors and journal still REPLACES a fully-populated retained
record with the same DOI - the code checks only `source === 'pubmed'`, never
whether the retained record lacks fields the candidate has. -/
theorem dedup_replacement_ignores_completeness :
    deduplicatePapers [exaFullPaper, pubmedSparsePaper] =
      [{ pubmedSparsePaper with duplicateSource := some ("exa".data) }] ∧
    pubmedSparsePaper.title = none ∧ pubmedSparsePaper.abstract = none ∧
    pubmedSparsePaper.authors = [] ∧ pubmedSparsePaper.journal = none ∧
    truthy exaFullPaper.title = true ∧ truthy exaFullPaper.abstract = true ∧
    exaFullPaper.authors ≠ [] ∧ truthy exaFullPaper.journal = true := by
  decide

/- ### Symbolic evaluation of fuzzy-tier runs -/

theorem levWF_diag (t : List Char) : ∀ k, levWF t t k k = 0 := by
  intro k
  induction k with
  | zero => simp [levWF]
  | succ k ih => rw [levWF, if_pos rfl, ih]

theorem similarity_self (a : JStr) (ha : a ≠ []) : similarity a a = 1 := by
  rw [similarity_formula a a ha ha, levWF_diag]
  have h0 : 0 < a.length := List.length_pos.mpr ha
  have hmax : Nat.max a.length a.length = a.length := by simp [Nat.max_def]
  rw [hmax]
  push_cast
  rw [sub_zero, div_self (by positivity)]

theorem titleTier_register (st : DState) (p : Paper) (t : JStr)
    (ht : p.title = some t) (hn : 20 < (normalizeTitle t).length)
    (hfind : st.seen.find? (fuzzyHit (normalizeTitle t)) = none) :
    titleTier st p =
      ⟨mapSet st.seen (SKey.title (normalizeTitle t)) p, st.unique ++ [p]⟩ := by
  unfold titleTier
  rw [ht]
  dsimp only
  rw [if_pos hn, hfind]

theorem titleTier_skip (st : DState) (p : Paper) (t tk : JStr) (ex : Paper)
    (ht : p.title = some t) (hn : 20 < (normalizeTitle t).length)
    (hfind : st.seen.find? (fuzzyHit (normalizeTitle t)) = some (SKey.title tk, ex))
    (hpm : ¬prefersPubmed p ex) :
    titleTier st p = st := by
  unfold titleTier
  rw [ht]
  dsimp only
  rw [if_pos hn, hfind]
  dsimp only
  rw [if_neg hpm]

theorem titleTier_replace (st : DState) (p : Paper) (t tk : JStr) (ex : Paper)
    (ht : p.title = some t) (hn : 20 < (normalizeTitle t).length)
    (hfind : st.seen.find? (fuzzyHit (normalizeTitle t)) = some (SKey.title tk, ex))
    (hpm : prefersPubmed p ex) :
    titleTier st p =
      ⟨mapSet (mapDelete st.seen (SKey.title tk)) (SKey.title (normalizeTitle t)) p,
        replaceFirst st.unique ex { p with duplicateSource := ex.source }⟩ := by
  unfold titleTier
  rw [ht]
  dsimp only
  rw [if_pos hn, hfind]
  dsimp only
  rw [if_pos hpm]

theorem titleTierMT_register (st : DState) (p : Paper) (t : JStr)
    (ht : p.title = some t) (hn : 20 < (normalizeTitle t).length)
    (hany : st.seen.any (fuzzyHit (normalizeTitle t)) = false) :
    titleTierMT st p =
      ⟨mapSet st.seen (SKey.title (normalizeTitle t)) p, st.unique ++ [p]⟩ := by
  unfold titleTierMT
  rw [ht]
  dsimp only
  rw [if_pos hn, hany]
  rfl

theorem titleTierMT_skip (st : DState) (p : Paper) (t : JStr)
    (ht : p.title = some t) (hn : 20 < (normalizeTitle t).length)
    (hany : st.seen.any (fuzzyHit (normalizeTitle t)) = true) :
    titleTierMT st p = st := by
  unfold titleTierMT
  rw [ht]
  dsimp only
  rw [if_pos hn, hany]
  rfl

/-- The two clinical-use titles' normalized forms are the same 25-character
string, so their similarity is 1, strictly above the 0.9 threshold. -/
theorem similarity_clinical_gt :
    (9 : ℚ) / 10 < similarity (normalizeTitle ("Phage Therapy in Clinical Use.".data))
      (normalizeTitle ("Phage Therapy in Clinical Use".data)) := by
  have hn2 : normalizeTitle ("Phage Therapy in Clinical Use.".data) =
      normalizeTitle ("Phage Therapy in Clinical Use".data) := by decide
  rw [hn2, similarity_self _ (by decide)]
  norm_num

/-- The two clinical-use titles fuzz-match. -/
theorem fuzzyHit_clinical (p : Paper) :
    fuzzyHit (normalizeTitle ("Phage Therapy in Clinical Use.".data))
      (SKey.title (normalizeTitle ("Phage Therapy in Clinical Use".data)), p) = true := by
  unfold fuzzyHit
  dsimp only
  exact decide_eq_true similarity_clinical_gt

/-- A generic two-candidate fuzzy merge: when the second candidate's
normalized title fuzz-matches the first retained record and the second is
not pubmed-over-non-pubmed, both versions keep only the first. -/
theorem dedup_fuzzy_pair (p1 p2 : Paper) (t1 t2 : JStr)
    (ht1 : p1.title = some t1) (ht2 : p2.title = some t2)
    (hd1 : truthy p1.doi = false) (hd2 : truthy p2.doi = false)
    (hn1 : 20 < (normalizeTitle t1).length) (hn2 : 20 < (normalizeTitle t2).length)
    (hhit : fuzzyHit (normalizeTitle t2) (SKey.title (normalizeTitle t1), p1) = true)
    (hpm : ¬prefersPubmed p2 p1) :
    deduplicatePapers [p1, p2] = [p1] ∧ deduplicatePapersMT [p1, p2] = [p1] := by
  have e1 : dedupStep ⟨[], []⟩ p1 = ⟨[(SKey.title (normalizeTitle t1), p1)], [p1]⟩ := by
    rw [dedupStep_no_doi _ _ hd1, titleTier_register ⟨[], []⟩ p1 t1 ht1 hn1 rfl]
    rfl
  have e2 : dedupStep ⟨[(SKey.title (normalizeTitle t1), p1)], [p1]⟩ p2 =
      ⟨[(SKey.title (normalizeTitle t1), p1)], [p1]⟩ := by
    rw [dedupStep_no_doi _ _ hd2]
    exact titleTier_skip _ p2 t2 (normalizeTitle t1) p1 ht2 hn2
      (List.find?_cons_of_pos _ hhit) hpm
  have e1m : dedupStepMT ⟨[], []⟩ p1 = ⟨[(SKey.title (normalizeTitle t1), p1)], [p1]⟩ := by
    rw [dedupStepMT_no_doi _ _ hd1, titleTierMT_register ⟨[], []⟩ p1 t1 ht1 hn1 rfl]
    rfl
  have e2m : dedupStepMT ⟨[(SKey.title (normalizeTitle t1), p1)], [p1]⟩ p2 =
      ⟨[(SKey.title (normalizeTitle t1), p1)], [p1]⟩ := by
    rw [dedupStepMT_no_doi _ _ hd2]
    refine titleTierMT_skip _ p2 t2 ht2 hn2 ?_
    simp [hhit]
  constructor
  · show (List.foldl dedupStep ⟨[], []⟩ [p1, p2]).unique = [p1]
    rw [List.foldl_cons, e1, List.foldl_cons, e2, List.foldl_nil]
  · show (List.foldl dedupStepMT ⟨[], []⟩ [p1, p2]).unique = [p1]
    rw [List.foldl_cons, e1m, List.foldl_cons, e2m, List.foldl_nil]

/- ### Claim C5 -/

def clinUsePaperA : Paper :=
  { title := some ("Phage Therapy in Clinical Use".data), source := some ("exa".data) }

def clinUsePaperB : Paper :=
  { title := some ("Phage Therapy in Clinical Use.".data), source := some ("biorxiv".data) }

def shortTitlePaperA : Paper :=
  { title := some ("Phage Therapy".data), doi := some ("10.7/same".data) }

def shortTitlePaperB : Paper :=
  { title := some ("Phage Biology".data), doi := some ("10.7/SAME".data) }

/-- C5.  Similarity threshold boundary: the two clinical-use titles are
classified as duplicates by the fuzzy tier (similarity strictly above 0.9,
and both dedup versions merge them), while records titled Phage Therapy and
Phage Biology (normalized length at most 20) are never merged by the fuzzy
tier - whatever their other fields - and merge only via identifier match
(last conjunct: with equal case-folded DOIs they do merge). -/
theorem similarity_threshold_boundary :
    ((9 : ℚ) / 10 < similarity (normalizeTitle ("Phage Therapy in Clinical Use".data))
        (normalizeTitle ("Phage Therapy in Clinical Use.".data)) ∧
      deduplicatePapers [clinUsePaperA, clinUsePaperB] = [clinUsePaperA] ∧
      deduplicatePapersMT [clinUsePaperA, clinUsePaperB] = [clinUsePaperA]) ∧
    (∀ p1 p2 : Paper, p1.title = some ("Phage Therapy".data) →
      p2.title = some ("Phage Biology".data) → p1.doi = none → p2.doi = none →
      deduplicatePapers [p1, p2] = [p1, p2] ∧ deduplicatePapersMT [p1, p2] = [p1, p2]) ∧
    deduplicatePapers [shortTitlePaperA, shortTitlePaperB] = [shortTitlePaperA] := by
  refine ⟨⟨?_, ?_⟩, ?_, by decide⟩
  · have hn2 : normalizeTitle ("Phage Therapy in Clinical Use.".data) =
        normalizeTitle ("Phage Therapy in Clinical Use".data) := by decide
    rw [hn2, similarity_self _ (by decide)]
    norm_num
  · exact dedup_fuzzy_pair clinUsePaperA clinUsePaperB _ _ rfl rfl rfl rfl
      (by decide) (by decide) (fuzzyHit_clinical clinUsePaperA) (by decide)
  · intro p1 p2 ht1 ht2 hd1 hd2
    have h1 : truthy p1.doi = false := by rw [hd1]; rfl
    have h2 : truthy p2.doi = false := by rw [hd2]; rfl
    have e1 : dedupStep ⟨[], []⟩ p1 = ⟨[], [p1]⟩ := by
      rw [dedupStep_no_doi _ _ h1, titleTier_push _ _ _ ht1 (by decide)]
      rfl
    have e2 : dedupStep ⟨[], [p1]⟩ p2 = ⟨[], [p1, p2]⟩ := by
      rw [dedupStep_no_doi _ _ h2, titleTier_push _ _ _ ht2 (by decide)]
      rfl
    have e1m : dedupStepMT ⟨[], []⟩ p1 = ⟨[], [p1]⟩ := by
      rw [dedupStepMT_no_doi _ _ h1, titleTierMT_push _ _ _ ht1 (by decide)]
      rfl
    have e2m : dedupStepMT ⟨[], [p1]⟩ p2 = ⟨[], [p1, p2]⟩ := by
      rw [dedupStepMT_no_doi _ _ h2, titleTierMT_push _ _ _ ht2 (by decide)]
      rfl
    constructor
    · show (List.foldl dedupStep ⟨[], []⟩ [p1, p2]).unique = [p1, p2]
      rw [List.foldl_cons, e1, List.foldl_cons, e2, List.foldl_nil]
    · show (List.foldl dedupStepMT ⟨[], []⟩ [p1, p2]).unique = [p1, p2]
      rw [List.foldl_cons, e1m, List.foldl_cons, e2m, List.foldl_nil]

theorem similarity_threshold_boundary_witness :
    deduplicatePapers [{ title := some ("Phage Therapy".data) },
        { title := some ("Phage Biology".data) }] =
      [{ title := some ("Phage Therapy".data) }, { title := some ("Phage Biology".data) }] ∧
    deduplicatePapersMT [{ title := some ("Phage Therapy".data) },
        { title := some ("Phage Biology".data) }] =
      [{ title := some ("Phage Therapy".data) }, { title := some ("Phage Biology".data) }] :=
  similarity_threshold_boundary.2.1 _ _ rfl rfl rfl rfl

/- ### Claim C4, amended theorem (both duplicate tiers) -/

def clinUsePaperPub : Paper :=
  { title := some ("Phage Therapy in Clinical Use.".data), source := some ("pubmed".data) }

/-- C4 (amended): in the triple-hybrid `deduplicatePapers`, on BOTH
duplicate tiers - an identifier match (lines 341-350) and a fuzzy title
match (lines 358-370) - the retained record is kept unless the candidate's
source is `pubmed` and the retained record's source is not: a binary
pubmed-over-everything priority, with no three-level source ranking and no
condition on whether the retained record lacks fields the candidate has.
When the candidate replaces, the replacement is the candidate annotated
with `duplicateSource` recording the replaced record's source. -/
theorem dedup_conflict_resolution :
    (∀ p1 p2 : Paper, truthy p1.doi = true → truthy p2.doi = true →
      lowerStr (p2.doi.getD []) = lowerStr (p1.doi.getD []) →
      (prefersPubmed p2 p1 → deduplicatePapers [p1, p2] =
        [{ p2 with duplicateSource := p1.source }]) ∧
      (¬prefersPubmed p2 p1 → deduplicatePapers [p1, p2] = [p1])) ∧
    (∀ (p1 p2 : Paper) (t1 t2 : JStr), p1.title = some t1 → p2.title = some t2 →
      truthy p1.doi = false → truthy p2.doi = false →
      20 < (normalizeTitle t1).length → 20 < (normalizeTitle t2).length →
      (9 : ℚ) / 10 < similarity (normalizeTitle t2) (normalizeTitle t1) →
      (prefersPubmed p2 p1 → deduplicatePapers [p1, p2] =
        [{ p2 with duplicateSource := p1.source }]) ∧
      (¬prefersPubmed p2 p1 → deduplicatePapers [p1, p2] = [p1])) := by
  constructor
  · intro p1 p2 h1 h2 hk
    obtain ⟨rest, hshape⟩ := dedupStep_init_shape p1 h1
    have hfold : deduplicatePapers [p1, p2] =
        (dedupStep (dedupStep ⟨[], []⟩ p1) p2).unique := rfl
    rw [hshape] at hfold
    have hget : mapGet ((SKey.doi (lowerStr (p1.doi.getD [])), p1) :: rest)
        (SKey.doi (lowerStr (p2.doi.getD []))) = some p1 := by
      rw [hk]
      unfold mapGet
      rw [List.find?_cons_of_pos _ (by simp)]
      rfl
    constructor
    · intro hpm
      rw [hfold]
      unfold dedupStep
      rw [if_pos h2]
      dsimp only
      rw [hget]
      dsimp only
      rw [if_pos hpm]
      dsimp only
      unfold replaceFirst
      rw [if_pos rfl]
    · intro hpm
      rw [hfold]
      unfold dedupStep
      rw [if_pos h2]
      dsimp only
      rw [hget]
      dsimp only
      rw [if_neg hpm]
  · intro p1 p2 t1 t2 ht1 ht2 hd1 hd2 hn1 hn2 hsim
    have hhit : fuzzyHit (normalizeTitle t2) (SKey.title (normalizeTitle t1), p1) = true := by
      unfold fuzzyHit
      dsimp only
      exact decide_eq_true hsim
    have e1 : dedupStep ⟨[], []⟩ p1 = ⟨[(SKey.title (normalizeTitle t1), p1)], [p1]⟩ := by
      rw [dedupStep_no_doi _ _ hd1, titleTier_register ⟨[], []⟩ p1 t1 ht1 hn1 rfl]
      rfl
    have hfold : deduplicatePapers [p1, p2] =
        (dedupStep (dedupStep ⟨[], []⟩ p1) p2).unique := rfl
    rw [e1] at hfold
    constructor
    · intro hpm
      rw [hfold, dedupStep_no_doi _ _ hd2,
        titleTier_replace _ p2 t2 (normalizeTitle t1) p1 ht2 hn2
          (List.find?_cons_of_pos _ hhit) hpm]
      show replaceFirst [p1] p1 { p2 with duplicateSource := p1.source } = _
      unfold replaceFirst
      rw [if_pos rfl]
    · intro hpm
      rw [hfold, dedupStep_no_doi _ _ hd2,
        titleTier_skip _ p2 t2 (normalizeTitle t1) p1 ht2 hn2
          (List.find?_cons_of_pos _ hhit) hpm]

theorem dedup_conflict_resolution_witness :
    (truthy exaFullPaper.doi = true ∧ truthy pubmedSparsePaper.doi = true ∧
      lowerStr (pubmedSparsePaper.doi.getD []) = lowerStr (exaFullPaper.doi.getD []) ∧
      prefersPubmed pubmedSparsePaper exaFullPaper ∧
      deduplicatePapers [exaFullPaper, pubmedSparsePaper] =
        [{ pubmedSparsePaper with duplicateSource := exaFullPaper.source }]) ∧
    ((9 : ℚ) / 10 < similarity (normalizeTitle ("Phage Therapy in Clinical Use.".data))
        (normalizeTitle ("Phage Therapy in Clinical Use".data)) ∧
      prefersPubmed clinUsePaperPub clinUsePaperA ∧
      deduplicatePapers [clinUsePaperA, clinUsePaperPub] =
        [{ clinUsePaperPub with duplicateSource := clinUsePaperA.source }]) :=
  ⟨⟨by decide, by decide, by decide, by decide,
    (dedup_conflict_resolution.1 exaFullPaper pubmedSparsePaper (by decide) (by decide)
      (by decide)).1 (by decide)⟩,
   ⟨similarity_clinical_gt, by decide,
    (dedup_conflict_resolution.2 clinUsePaperA clinUsePaperPub
      ("Phage Therapy in Clinical Use".data) ("Phage Therapy in Clinical Use.".data)
      rfl rfl rfl rfl (by decide) (by decide) similarity_clinical_gt).1 (by decide)⟩⟩

theorem dedupStep_doi_fresh (st : DState) (p : Paper) (hd : truthy p.doi = true)
    (hget : mapGet st.seen (SKey.doi (lowerStr (p.doi.getD []))) = none) :
    dedupStep st p =
      titleTier ⟨mapSet st.seen (SKey.doi (lowerStr (p.doi.getD []))) p, st.unique⟩ p := by
  unfold dedupStep
  rw [if_pos hd]
  dsimp only
  rw [hget]

theorem dedupStep_doi_dup (st : DState) (p ex : Paper) (hd : truthy p.doi = true)
    (hget : mapGet st.seen (SKey.doi (lowerStr (p.doi.getD []))) = some ex)
    (hpm : ¬prefersPubmed p ex) :
    dedupStep st p = st := by
  unfold dedupStep
  rw [if_pos hd]
  dsimp only
  rw [hget]
  dsimp only
  rw [if_neg hpm]

theorem dedupStepMT_doi_fresh (st : DState) (p : Paper) (hd : truthy p.doi = true)
    (hget : mapGet st.seen (SKey.doi (lowerStr (p.doi.getD []))) = none) :
    dedupStepMT st p =
      titleTierMT ⟨mapSet st.seen (SKey.doi (lowerStr (p.doi.getD []))) p, st.unique⟩ p := by
  unfold dedupStepMT
  rw [if_pos hd]
  dsimp only
  rw [hget]
  rfl

theorem dedupStepMT_doi_dup (st : DState) (p ex : Paper) (hd : truthy p.doi = true)
    (hget : mapGet st.seen (SKey.doi (lowerStr (p.doi.getD []))) = some ex) :
    dedupStepMT st p = st := by
  unfold dedupStepMT
  rw [if_pos hd]
  dsimp only
  rw [hget]
  rfl

/- ### Claim C10 -/

def poisonPaperA : Paper :=
  { title := some ("Phage Therapy in Clinical Use".data), source := some ("exa".data) }

def poisonPaperB : Paper :=
  { title := some ("Phage Therapy in Clinical Use.".data),
    doi := some ("10.9/Poison".data), source := some ("biorxiv".data) }

def poisonPaperC : Paper :=
  { title := some ("Novel Lytic Phages Against Klebsiella".data),
    doi := some ("10.9/POISON".data), source := some ("exa".data) }

def poisonPaperD : Paper :=
  { doi := some ("10.9/poison".data), source := some ("medrxiv".data) }

/-- C10.  A candidate (B) whose DOI is new but whose normalized title
fuzz-matches an earlier retained record (A) is discarded AFTER its DOI has
been registered in the seen map; every later candidate bearing that DOI
(C and D, in any casing) is then also discarded, although no record in the
output carries that DOI.  This happens in both versions of
`deduplicatePapers`. -/
theorem dedup_discarded_doi_poisons_index :
    deduplicatePapers [poisonPaperA, poisonPaperB, poisonPaperC, poisonPaperD] =
      [poisonPaperA] ∧
    deduplicatePapersMT [poisonPaperA, poisonPaperB, poisonPaperC, poisonPaperD] =
      [poisonPaperA] ∧
    truthy poisonPaperB.doi = true ∧ truthy poisonPaperC.doi = true ∧
    truthy poisonPaperD.doi = true ∧
    lowerStr (poisonPaperC.doi.getD []) = lowerStr (poisonPaperB.doi.getD []) ∧
    lowerStr (poisonPaperD.doi.getD []) = lowerStr (poisonPaperB.doi.getD []) ∧
    lowerStr (poisonPaperA.doi.getD []) ≠ lowerStr (poisonPaperB.doi.getD []) := by
  have hms : mapSet [(SKey.title (normalizeTitle ("Phage Therapy in Clinical Use".data)),
        poisonPaperA)] (SKey.doi (lowerStr (poisonPaperB.doi.getD []))) poisonPaperB =
      [(SKey.title (normalizeTitle ("Phage Therapy in Clinical Use".data)), poisonPaperA),
        (SKey.doi ("10.9/poison".data), poisonPaperB)] := by decide
  have e1 : dedupStep ⟨[], []⟩ poisonPaperA =
      ⟨[(SKey.title (normalizeTitle ("Phage Therapy in Clinical Use".data)), poisonPaperA)],
        [poisonPaperA]⟩ := by
    rw [dedupStep_no_doi _ _ (by decide),
      titleTier_register ⟨[], []⟩ poisonPaperA ("Phage Therapy in Clinical Use".data)
        rfl (by decide) rfl]
    rfl
  have e2 : dedupStep
      ⟨[(SKey.title (normalizeTitle ("Phage Therapy in Clinical Use".data)), poisonPaperA)],
        [poisonPaperA]⟩ poisonPaperB =
      ⟨[(SKey.title (normalizeTitle ("Phage Therapy in Clinical Use".data)), poisonPaperA),
        (SKey.doi ("10.9/poison".data), poisonPaperB)], [poisonPaperA]⟩ := by
    rw [dedupStep_doi_fresh _ poisonPaperB (by decide) (by decide)]
    dsimp only
    rw [hms]
    exact titleTier_skip _ poisonPaperB ("Phage Therapy in Clinical Use.".data)
      (normalizeTitle ("Phage Therapy in Clinical Use".data)) poisonPaperA rfl (by decide)
      (List.find?_cons_of_pos _ (fuzzyHit_clinical poisonPaperA)) (by decide)
  have e3 : dedupStep
      ⟨[(SKey.title (normalizeTitle ("Phage Therapy in Clinical Use".data)), poisonPaperA),
        (SKey.doi ("10.9/poison".data), poisonPaperB)], [poisonPaperA]⟩ poisonPaperC =
      ⟨[(SKey.title (normalizeTitle ("Phage Therapy in Clinical Use".data)), poisonPaperA),
        (SKey.doi ("10.9/poison".data), poisonPaperB)], [poisonPaperA]⟩ :=
    dedupStep_doi_dup _ poisonPaperC poisonPaperB (by decide) (by decide) (by decide)
  have e4 : dedupStep
      ⟨[(SKey.title (normalizeTitle ("Phage Therapy in Clinical Use".data)), poisonPaperA),
        (SKey.doi ("10.9/poison".data), poisonPaperB)], [poisonPaperA]⟩ poisonPaperD =
      ⟨[(SKey.title (normalizeTitle ("Phage Therapy in Clinical Use".data)), poisonPaperA),
        (SKey.doi ("10.9/poison".data), poisonPaperB)], [poisonPaperA]⟩ :=
    dedupStep_doi_dup _ poisonPaperD poisonPaperB (by decide) (by decide) (by decide)
  have e1m : dedupStepMT ⟨[], []⟩ poisonPaperA =
      ⟨[(SKey.title (normalizeTitle ("Phage Therapy in Clinical Use".data)), poisonPaperA)],
        [poisonPaperA]⟩ := by
    rw [dedupStepMT_no_doi _ _ (by decide),
      titleTierMT_register ⟨[], []⟩ poisonPaperA ("Phage Therapy in Clinical Use".data)
        rfl (by decide) rfl]
    rfl
  have e2m : dedupStepMT
      ⟨[(SKey.title (normalizeTitle ("Phage Therapy in Clinical Use".data)), poisonPaperA)],
        [poisonPaperA]⟩ poisonPaperB =
      ⟨[(SKey.title (normalizeTitle ("Phage Therapy in Clinical Use".data)), poisonPaperA),
        (SKey.doi ("10.9/poison".data), poisonPaperB)], [poisonPaperA]⟩ := by
    rw [dedupStepMT_doi_fresh _ poisonPaperB (by decide) (by decide)]
    dsimp only
    rw [hms]
    refine titleTierMT_skip _ poisonPaperB ("Phage Therapy in Clinical Use.".data)
      rfl (by decide) ?_
    rw [List.any_cons, fuzzyHit_clinical poisonPaperA]
    rfl
  have e3m : dedupStepMT
      ⟨[(SKey.title (normalizeTitle ("Phage Therapy in Clinical Use".data)), poisonPaperA),
        (SKey.doi ("10.9/poison".data), poisonPaperB)], [poisonPaperA]⟩ poisonPaperC =
      ⟨[(SKey.title (normalizeTitle ("Phage Therapy in Clinical Use".data)), poisonPaperA),
        (SKey.doi ("10.9/poison".data), poisonPaperB)], [poisonPaperA]⟩ :=
    dedupStepMT_doi_dup _ poisonPaperC poisonPaperB (by decide) (by decide)
  have e4m : dedupStepMT
      ⟨[(SKey.title (normalizeTitle ("Phage Therapy in Clinical Use".data)), poisonPaperA),
        (SKey.doi ("10.9/poison".data), poisonPaperB)], [poisonPaperA]⟩ poisonPaperD =
      ⟨[(SKey.title (normalizeTitle ("Phage Therapy in Clinical Use".data)), poisonPaperA),
        (SKey.doi ("10.9/poison".data), poisonPaperB)], [poisonPaperA]⟩ :=
    dedupStepMT_doi_dup _ poisonPaperD poisonPaperB (by decide) (by decide)
  refine ⟨?_, ?_, by decide, by decide, by decide, by decide, by decide, by decide⟩
  · show (List.foldl dedupStep ⟨[], []⟩
      [poisonPaperA, poisonPaperB, poisonPaperC, poisonPaperD]).unique = [poisonPaperA]
    rw [List.foldl_cons, e1, List.foldl_cons, e2, List.foldl_cons, e3,
      List.foldl_cons, e4, List.foldl_nil]
  · show (List.foldl dedupStepMT ⟨[], []⟩
      [poisonPaperA, poisonPaperB, poisonPaperC, poisonPaperD]).unique = [poisonPaperA]
    rw [List.foldl_cons, e1m, List.foldl_cons, e2m, List.foldl_cons, e3m,
      List.foldl_cons, e4m, List.foldl_nil]

/- ### Relevance filters (multi-topic script, lines 968-1037 and 1354-1433) -/

/-- The twelve topics with their own case in the topic switches. -/
def knownTopics : List JStr :=
  [("phage therapy".data), ("phage bioinformatics".data),
    ("phage-host interactions".data), ("phage biology".data),
    ("phage resistance".data), ("phage defense".data),
    ("phage engineering".data), ("phage-antibiotic synergy".data),
    ("phageome".data), ("virome".data), ("prophage".data),
    ("phage-immune interactions".data)]

/-- The per-topic keyword predicate of the bioRxiv filter
(the `switch(topic)` of lines 991-1036). -/
def biorxivTopicSwitch (topic text : JStr) : Bool :=
  if topic = ("phage therapy".data) then
    jsIncludes text ("therapy".data) || jsIncludes text ("therapeutic".data) ||
    jsIncludes text ("treatment".data)
  else if topic = ("phage bioinformatics".data) then
    jsIncludes text ("bioinformatics".data) || jsIncludes text ("computational".data) ||
    jsIncludes text ("genomic".data) || jsIncludes text ("metagenomics".data)
  else if topic = ("phage-host interactions".data) then
    jsIncludes text ("host".data) || jsIncludes text ("infection".data) ||
    jsIncludes text ("interaction".data)
  else if topic = ("phage biology".data) then
    jsIncludes text ("biology".data) || jsIncludes text ("lifecycle".data) ||
    jsIncludes text ("life cycle".data) || jsIncludes text ("replication".data) ||
    jsIncludes text ("morphology".data)
  else if topic = ("phage resistance".data) then
    jsIncludes text ("resistance".data) || jsIncludes text ("resistant".data)
  else if topic = ("phage defense".data) then
    jsIncludes text ("defense".data) || jsIncludes text ("defence".data) ||
    jsIncludes text ("crispr".data) || jsIncludes text ("restriction".data) ||
    jsIncludes text ("immunity".data)
  else if topic = ("phage engineering".data) then
    jsIncludes text ("engineering".data) || jsIncludes text ("engineered".data) ||
    jsIncludes text ("synthetic".data) || jsIncludes text ("design".data) ||
    jsIncludes text ("modification".data)
  else if topic = ("phage-antibiotic synergy".data) then
    (jsIncludes text ("antibiotic".data) || jsIncludes text ("antimicrobial".data)) &&
    (jsIncludes text ("synergy".data) || jsIncludes text ("combination".data) ||
      jsIncludes text ("combined".data))
  else if topic = ("phageome".data) then
    jsIncludes text ("phageome".data) || jsIncludes text ("phage community".data) ||
    jsIncludes text ("phage diversity".data)
  else if topic = ("virome".data) then
    jsIncludes text ("virome".data) || jsIncludes text ("viral community".data) ||
    jsIncludes text ("viral metagenome".data)
  else if topic = ("prophage".data) then
    jsIncludes text ("prophage".data) || jsIncludes text ("lysogen".data) ||
    jsIncludes text ("lysogenic".data) || jsIncludes text ("temperate phage".data)
  else if topic = ("phage-immune interactions".data) then
    jsIncludes text ("immune".data) || jsIncludes text ("immunity".data) ||
    jsIncludes text ("immunolog".data)
  else true

/-- The bioRxiv collection filter callback of lines 968-1037: macrophage
guard, phage-in-title guard for virome/phageome, generic phage-term guard,
then the topic switch. -/
def biorxivRelevant (topic rawTitle rawAbstract : JStr) : Bool :=
  let title := lowerStr rawTitle
  let abstract := lowerStr rawAbstract
  let text := title ++ (" ".data) ++ abstract
  let isMacrophagePaper := jsIncludes title ("macrophage".data) &&
    !jsIncludes text ("bacteriophage".data) && !jsIncludes text ("phage therapy".data)
  if isMacrophagePaper then false
  else if (decide (topic = ("virome".data)) || decide (topic = ("phageome".data))) &&
      !(wordTest title ("phage".data) || jsIncludes title ("bacteriophage".data)) then false
  else if !(wordTest text ("phage".data) || jsIncludes text ("bacteriophage".data)) then false
  else biorxivTopicSwitch topic text

/-- The generic (non-topic-specific) part of the bioRxiv filter: not an
obvious macrophage paper, and the text mentions a phage term. -/
def biorxivGenericGuard (rawTitle rawAbstract : JStr) : Bool :=
  let title := lowerStr rawTitle
  let abstract := lowerStr rawAbstract
  let text := title ++ (" ".data) ++ abstract
  let isMacrophagePaper := jsIncludes title ("macrophage".data) &&
    !jsIncludes text ("bacteriophage".data) && !jsIncludes text ("phage therapy".data)
  !isMacrophagePaper && (wordTest text ("phage".data) || jsIncludes text ("bacteriophage".data))

/-- The per-topic keyword predicate of the Exa relevance switch
(lines 1372-1428). -/
def exaTopicSwitch (topic text : JStr) : Bool :=
  if topic = ("phage therapy".data) then
    jsIncludes text ("therapy".data) || jsIncludes text ("treatment".data) ||
    jsIncludes text ("therapeutic".data)
  else if topic = ("phage bioinformatics".data) then
    jsIncludes text ("bioinformatics".data) || jsIncludes text ("computational".data) ||
    jsIncludes text ("genomic".data)
  else if topic = ("phage-host interactions".data) then
    jsIncludes text ("host".data) || jsIncludes text ("infection".data) ||
    jsIncludes text ("interaction".data)
  else if topic = ("phage biology".data) then
    jsIncludes text ("biology".data) || jsIncludes text ("lifecycle".data) ||
    jsIncludes text ("life cycle".data) || jsIncludes text ("replication".data) ||
    jsIncludes text ("morphology".data)
  else if topic = ("phage resistance".data) then
    jsIncludes text ("resistance".data) || jsIncludes text ("resistant".data)
  else if topic = ("phage defense".data) then
    jsIncludes text ("defense".data) || jsIncludes text ("defence".data) ||
    jsIncludes text ("crispr".data) || jsIncludes text ("restriction".data) ||
    jsIncludes text ("immunity".data)
  else if topic = ("phage engineering".data) then
    jsIncludes text ("engineering".data) || jsIncludes text ("engineered".data) ||
    jsIncludes text ("synthetic".data) || jsIncludes text ("design".data) ||
    jsIncludes text ("modification".data)
  else if topic = ("phage-antibiotic synergy".data) then
    (jsIncludes text ("antibiotic".data) || jsIncludes text ("antimicrobial".data)) &&
    (jsIncludes text ("synergy".data) || jsIncludes text ("combination".data) ||
      jsIncludes text ("combined".data))
  else if topic = ("phageome".data) then
    jsIncludes text ("phageome".data) || jsIncludes text ("phage community".data) ||
    jsIncludes text ("diversity".data)
  else if topic = ("virome".data) then
    jsIncludes text ("virome".data) || jsIncludes text ("viral community".data) ||
    jsIncludes text ("viral metagenome".data)
  else if topic = ("prophage".data) then
    jsIncludes text ("prophage".data) || jsIncludes text ("lysogen".data) ||
    jsIncludes text ("lysogenic".data) || jsIncludes text ("temperate".data)
  else if topic = ("phage-immune interactions".data) then
    jsIncludes text ("immune".data) || jsIncludes text ("immunity".data) ||
    jsIncludes text ("immunolog".data)
  else true

/-- The Exa relevance decision of lines 1354-1433, applied to the
already-lowercased title and abstract of lines 1338-1339: generic phage
guard (plain substring test), phage-in-title guard for virome/phageome,
then the topic switch. -/
def exaRelevant (topic title abstract : JStr) : Bool :=
  let text := title ++ (" ".data) ++ abstract
  if !(jsIncludes text ("phage".data) || jsIncludes text ("bacteriophage".data)) then false
  else if (decide (topic = ("virome".data)) || decide (topic = ("phageome".data))) &&
      !(wordTest title ("phage".data) || jsIncludes title ("bacteriophage".data)) then false
  else exaTopicSwitch topic text

theorem biorxivTopicSwitch_unknown (topic text : JStr) (h : topic ∉ knownTopics) :
    biorxivTopicSwitch topic text = true := by
  unfold biorxivTopicSwitch
  rw [if_neg (fun hh => h (by rw [hh]; decide)), if_neg (fun hh => h (by rw [hh]; decide)),
    if_neg (fun hh => h (by rw [hh]; decide)), if_neg (fun hh => h (by rw [hh]; decide)),
    if_neg (fun hh => h (by rw [hh]; decide)), if_neg (fun hh => h (by rw [hh]; decide)),
    if_neg (fun hh => h (by rw [hh]; decide)), if_neg (fun hh => h (by rw [hh]; decide)),
    if_neg (fun hh => h (by rw [hh]; decide)), if_neg (fun hh => h (by rw [hh]; decide)),
    if_neg (fun hh => h (by rw [hh]; decide)), if_neg (fun hh => h (by rw [hh]; decide))]

theorem exaTopicSwitch_unknown (topic text : JStr) (h : topic ∉ knownTopics) :
    exaTopicSwitch topic text = true := by
  unfold exaTopicSwitch
  rw [if_neg (fun hh => h (by rw [hh]; decide)), if_neg (fun hh => h (by rw [hh]; decide)),
    if_neg (fun hh => h (by rw [hh]; decide)), if_neg (fun hh => h (by rw [hh]; decide)),
    if_neg (fun hh => h (by rw [hh]; decide)), if_neg (fun hh => h (by rw [hh]; decide)),
    if_neg (fun hh => h (by rw [hh]; decide)), if_neg (fun hh => h (by rw [hh]; decide)),
    if_neg (fun hh => h (by rw [hh]; decide)), if_neg (fun hh => h (by rw [hh]; decide)),
    if_neg (fun hh => h (by rw [hh]; decide)), if_neg (fun hh => h (by rw [hh]; decide))]

theorem guard_shape_two (m p : Bool) :
    (if m then false else if !p then false else true) = (!m && p) := by
  cases m <;> cases p <;> rfl

theorem guard_shape_one (p : Bool) :
    (if !p then false else true) = p := by
  cases p <;> rfl

/- ### Claim C6 -/

set_option maxRecDepth 8000 in
/-- C6 counterexample: with a topic outside the known set, a well-formed
record (non-empty title, abstract, url) that does not mention a phage term
is REJECTED by both relevance switches - the permissive `default: true`
sits behind a hard generic phage guard, so an unknown topic does not return
true for every well-formed Paper. -/
theorem relevance_filter_not_fail_open :
    ("quantum computing".data : JStr) ∉ knownTopics ∧
    biorxivRelevant ("quantum computing".data) ("A study of Escherichia coli growth".data)
      ("We measure bacterial growth rates in culture.".data) = false ∧
    exaRelevant ("quantum computing".data) ("a study of escherichia coli growth".data)
      ("we measure bacterial growth rates in culture.".data) = false := by
  decide

/-- C6 (amended): for every topic outside the known set, the topic switch
takes its permissive always-true default, so the filter reduces exactly to
the generic guards: the bioRxiv filter returns true iff the record passes
the macrophage guard and mentions a phage term, and the Exa relevance check
returns true iff the text contains `phage` or `bacteriophage`. -/
theorem relevance_filter_unknown_topic (topic ti ab : JStr) (h : topic ∉ knownTopics) :
    biorxivRelevant topic ti ab = biorxivGenericGuard ti ab ∧
    exaRelevant topic ti ab =
      (jsIncludes (ti ++ (" ".data) ++ ab) ("phage".data) ||
        jsIncludes (ti ++ (" ".data) ++ ab) ("bacteriophage".data)) := by
  have hv : decide (topic = ("virome".data)) = false :=
    decide_eq_false (fun hh => h (by rw [hh]; decide))
  have hp : decide (topic = ("phageome".data)) = false :=
    decide_eq_false (fun hh => h (by rw [hh]; decide))
  constructor
  · unfold biorxivRelevant biorxivGenericGuard
    dsimp only
    rw [biorxivTopicSwitch_unknown topic _ h, hv, hp]
    rw [Bool.false_or, Bool.false_and]
    rw [if_neg Bool.false_ne_true]
    exact guard_shape_two _ _
  · unfold exaRelevant
    dsimp only
    rw [exaTopicSwitch_unknown topic _ h, hv, hp]
    rw [Bool.false_or, Bool.false_and]
    rw [if_neg Bool.false_ne_true]
    exact guard_shape_one _

theorem relevance_filter_unknown_topic_witness :
    (("astronomy".data : JStr) ∉ knownTopics) ∧
    (biorxivRelevant ("astronomy".data) ("Phage ecology overview".data)
        ("bacteriophage dynamics".data) =
      biorxivGenericGuard ("Phage ecology overview".data) ("bacteriophage dynamics".data) ∧
     exaRelevant ("astronomy".data) ("phage ecology overview".data)
        ("bacteriophage dynamics".data) =
      (jsIncludes (("phage ecology overview".data) ++ (" ".data) ++
          ("bacteriophage dynamics".data)) ("phage".data) ||
        jsIncludes (("phage ecology overview".data) ++ (" ".data) ++
          ("bacteriophage dynamics".data)) ("bacteriophage".data))) :=
  ⟨by decide, relevance_filter_unknown_topic _ _ _ (by decide)⟩

/- ### Aggregator control flow of the triple-hybrid script

Each network call's outcome is passed in explicitly (`HttpResp`); a thrown
JS error is an `Except.error` escaping to the top-level catch of lines
690-696, which aborts the whole run (`Deno.exit(1)`). -/

inductive HttpResp (α : Type) where
  | ok (data : α)
  | notOk (status : Nat)
  | netError (msg : JStr)
  deriving DecidableEq, Repr

def natStr (n : Nat) : JStr := (toString n).data

/-- `searchPubMed` (lines 169-197): throws on a non-ok HTTP response
(`PubMed API returned <status>`); a network failure of `fetch` itself also
propagates as a thrown error. -/
def searchPubMedOutcome (r : HttpResp (List JStr)) : Except JStr (List JStr) :=
  match r with
  | HttpResp.ok pmids => Except.ok pmids
  | HttpResp.notOk status => Except.error (("PubMed API returned ".data) ++ natStr status)
  | HttpResp.netError m => Except.error m

/-- `fetchPubMedMetadata` (lines 39-47): throws on a non-ok response; the
parsed papers of the success path are the payload. -/
def fetchPubMedMetadataOutcome (r : HttpResp (List Paper)) : Except JStr (List Paper) :=
  match r with
  | HttpResp.ok papers => Except.ok papers
  | HttpResp.notOk status =>
      Except.error (("PubMed eFetch API returned ".data) ++ natStr status)
  | HttpResp.netError m => Except.error m

/-- A raw bioRxiv/medRxiv API collection entry; `[]` models an absent
field (the filter applies `|| ''` fallbacks). -/
structure BioEntry where
  title : JStr := []
  abstract : JStr := []
  doi : JStr := []
  version : JStr := []
  authors : JStr := []
  date : JStr := []
  category : JStr := []
  deriving DecidableEq, Repr

/-- The phage filter over bioRxiv entries (lines 244-260 of the
triple-hybrid script). -/
def bioPhageFilterD1 (e : BioEntry) : Bool :=
  let title := lowerStr e.title
  let abstract := lowerStr e.abstract
  let text := title ++ (" ".data) ++ abstract
  let hasBacteriophage := jsIncludes text ("bacteriophage".data)
  let hasPhageTherapy := jsIncludes text ("phage therapy".data)
  let hasPhage := wordTest text ("phage".data)
  let isMacrophagePaper := jsIncludes title ("macrophage".data) &&
    !jsIncludes title ("bacteriophage".data) && !jsIncludes title ("phage therapy".data)
  (hasBacteriophage || hasPhageTherapy || hasPhage) && !isMacrophagePaper

def jsTrim (s : JStr) : JStr :=
  ((s.dropWhile Char.isWhitespace).reverse.dropWhile Char.isWhitespace).reverse

/-- Conversion of a matching bioRxiv entry to the common paper shape
(lines 265-280).  An empty `authors` field takes the absent reading of the
source's `paper.authors?.split(';')... || []`. -/
def convertBio (server : JStr) (e : BioEntry) : Paper :=
  { source := some server,
    title := some e.title,
    authors := if e.authors.isEmpty then [] else (e.authors.splitOn ';').map jsTrim,
    doi := some e.doi,
    url := some (("https://www.".data) ++ server ++ (".org/content/".data) ++
      e.doi ++ ("v".data) ++ e.version),
    abstract := some e.abstract,
    date := some e.date,
    dateFormatted := some e.date,
    year := (e.date.splitOn '-')[0]?,
    month := (e.date.splitOn '-')[1]?,
    day := (e.date.splitOn '-')[2]?,
    journal := some (if server = ("biorxiv".data) then ("bioRxiv".data)
      else ("medRxiv".data)),
    category := some e.category }

/-- `searchBioRxiv` of the triple-hybrid script (lines 204-288): iterates
the servers, and a non-ok response (`continue`) or a thrown error (the
per-server `catch`) merely skips that server's contribution. -/
def searchBioRxiv1 : List (JStr × HttpResp (List BioEntry)) → List Paper
  | [] => []
  | (server, HttpResp.ok coll) :: rest =>
      (coll.filter bioPhageFilterD1).map (convertBio server) ++ searchBioRxiv1 rest
  | _ :: rest => searchBioRxiv1 rest

/-- An Exa search result stub. -/
structure ExaStub where
  url : JStr := []
  title : JStr := []
  text : JStr := []
  publishedDate : JStr := []
  deriving DecidableEq, Repr

/-- JS `a || b` for a possibly-undefined string `a` and string `b`. -/
def jsOrStr (a : Option JStr) (b : JStr) : JStr :=
  match a with
  | some s => if s.isEmpty then b else s
  | none => b

/-- The Exa metadata loop of lines 487-527: stop once 20 papers are
collected; skip items whose metadata carries an error, items without a DOI,
and items without phage-related text; otherwise collect the metadata with
the `exa` source annotations. -/
def exaCollectGo : List Paper → List (ExaStub × Paper) → List Paper
  | acc, [] => acc
  | acc, (stub, m) :: rest =>
      if 20 ≤ acc.length then acc
      else
        match m.error with
        | some _ => exaCollectGo acc rest
        | none =>
            let title := lowerStr (jsOrStr m.title stub.title)
            let abstract := lowerStr (jsOrStr m.abstract stub.text)
            if !truthy m.doi then exaCollectGo acc rest
            else if !((jsIncludes title ("phage".data) ||
                jsIncludes title ("bacteriophage".data)) ||
                (jsIncludes abstract ("phage therapy".data) ||
                  jsIncludes abstract ("bacteriophage".data) ||
                  jsIncludes abstract ("phages as".data))) then exaCollectGo acc rest
            else
              let collected := { m with
                source := some ("exa".data)
                exaTitle := some stub.title
                exaPublishedDate := some stub.publishedDate }
              exaCollectGo (acc ++ [collected]) rest

def exaCollect (items : List (ExaStub × Paper)) : List Paper := exaCollectGo [] items

/-- `searchWithExa` of the Exa client module (as reached from the script
via `searchResearchPapers` and `searchAndContents`): it throws when the
`EXA_API_KEY` environment value is falsy, throws
`Exa API error: <status> <body>` on a non-ok response, and rethrows a
network error of `fetch`; the triple-hybrid script has no handler for any
of these below its top-level catch.  `errText` is the response body the
non-ok branch reads with `response.text()`. -/
def searchWithExaOutcome (apiKey : Option JStr) (errText : JStr)
    (r : HttpResp (List ExaStub)) : Except JStr (List ExaStub) :=
  if truthy apiKey then
    match r with
    | HttpResp.ok results => Except.ok results
    | HttpResp.notOk status =>
        Except.error ((("Exa API error: ".data) ++ natStr status ++ (" ".data) ++ errText))
    | HttpResp.netError m => Except.error m
  else Except.error (("EXA_API_KEY environment variable is required".data))

/-- Tail of the `/journal/` pattern: one nonempty slash-free path
component, then an optional final slash, then the end of the string. -/
def noSlashSeg (r : JStr) : Bool :=
  let r2 := if r.getLast? = some '/' then r.dropLast else r
  (!r2.isEmpty) && !(r2.contains '/')

/-- The regex `/\/journal\/[^/]+\/?$/` of the Exa URL filter (line 452): a
literal `/journal/` followed by one path component and an optional final
slash at the end of the URL. -/
def journalTailMatch : JStr → Bool
  | [] => false
  | c :: rest =>
      (("/journal/".data).isPrefixOf (c :: rest) && noSlashSeg ((c :: rest).drop 9)) ||
        journalTailMatch rest

/-- The regex `/\/\d\x7b7,\x7d\/?$/` of line 465: a slash followed by at
least seven digits and an optional final slash at the end of the URL. -/
def digitsTailMatch : JStr → Bool
  | [] => false
  | c :: rest =>
      (decide (c = '/') && decide (7 ≤ (rest.takeWhile Char.isDigit).length) &&
        (let t := rest.drop (rest.takeWhile Char.isDigit).length
         t.isEmpty || decide (t = [ '/' ]))) || digitsTailMatch rest

def isSlugCh (c : Char) : Bool :=
  (decide ('a' ≤ c) && decide (c ≤ 'z')) || (decide ('0' ≤ c) && decide (c ≤ '9')) ||
    decide (c = '-')

/-- The regex `/\/[a-z0-9-]\x7b10,\x7d/` of line 466: a slash followed by at
least ten lowercase-alphanumeric-or-hyphen characters, anywhere in the
URL. -/
def slugMatch : JStr → Bool
  | [] => false
  | c :: rest =>
      (decide (c = '/') && decide (10 ≤ (rest.takeWhile isSlugCh).length)) || slugMatch rest

/-- The collection/index-page URL filter over the Exa search results
(lines 451-479), with the early returns of the source in order. -/
def exaUrlFilter (stub : ExaStub) : Bool :=
  let url := lowerStr stub.url
  if jsIncludes url ("/toc/".data) then false
  else if journalTailMatch url then false
  else if jsIncludes url ("/research-topics/".data) then false
  else if jsIncludes url ("/collections/".data) then false
  else if jsIncludes url ("/collection/".data) then false
  else if jsIncludes url ("/authors".data) then false
  else if jsIncludes url ("/latest".data) then false
  else if jsIncludes url ("/recent".data) then false
  else if jsIncludes url ("/article".data) then true
  else if jsIncludes url ("/articles/".data) then true
  else if jsIncludes url ("/doi/".data) then true
  else if digitsTailMatch url then true
  else if slugMatch url then true
  else if (jsIncludes url ("biorxiv.org".data) || jsIncludes url ("medrxiv.org".data) ||
      jsIncludes url ("arxiv.org".data)) && !jsIncludes url ("/collection".data) then true
  else false

/-- The body of `searchPhageTherapyTripleHybrid` (lines 399-689) at the
level of its network steps: PubMed search, PubMed metadata fetch (only when
pmids were found), bioRxiv servers, the Exa search (`searchResearchPapers`,
line 438 - its thrown errors have no handler short of the top-level catch),
the URL filter over the Exa results, the Exa metadata loop, then one global
deduplication; a thrown error escapes as `Except.error` to the top-level
catch, which aborts the run.  `fetchMeta` gives each surviving stub's
`fetchAcademicMetadata` record (that call never throws - claim C7). -/
def tripleHybridRun (psearch : HttpResp (List JStr)) (pfetch : HttpResp (List Paper))
    (bio : List (JStr × HttpResp (List BioEntry))) (exaKey : Option JStr)
    (exaErrText : JStr) (exasearch : HttpResp (List ExaStub))
    (fetchMeta : ExaStub → Paper) : Except JStr (List Paper) := do
  let pmids ← searchPubMedOutcome psearch
  let pubmedPapers ← if pmids.isEmpty then pure [] else fetchPubMedMetadataOutcome pfetch
  let biorxivPapers := searchBioRxiv1 bio
  let results ← searchWithExaOutcome exaKey exaErrText exasearch
  let filteredResults := results.filter exaUrlFilter
  let exaPapers := exaCollect (filteredResults.map (fun s => (s, fetchMeta s)))
  Except.ok (deduplicatePapers (pubmedPapers ++ biorxivPapers ++ exaPapers))

theorem searchWithExaOutcome_ok {key : Option JStr} (hk : truthy key = true)
    (errt : JStr) (results : List ExaStub) :
    searchWithExaOutcome key errt (HttpResp.ok results) = Except.ok results := by
  unfold searchWithExaOutcome
  rw [hk]
  rfl

theorem searchWithExaOutcome_notOk {key : Option JStr} (hk : truthy key = true)
    (errt : JStr) (st : Nat) :
    searchWithExaOutcome key errt (HttpResp.notOk st) =
      Except.error ((("Exa API error: ".data) ++ natStr st ++ (" ".data) ++ errt)) := by
  unfold searchWithExaOutcome
  rw [hk]
  rfl

theorem exaCollectGo_cap {acc : List Paper} (h : 20 ≤ acc.length) :
    ∀ items, exaCollectGo acc items = acc := by
  intro items
  cases items with
  | nil => rfl
  | cons hd rest =>
      obtain ⟨stub, m⟩ := hd
      unfold exaCollectGo
      rw [if_pos h]

theorem exaCollectGo_error_skip (stub : ExaStub) (m : Paper) (e : JStr)
    (post : List (ExaStub × Paper)) :
    ∀ (pre : List (ExaStub × Paper)) (acc : List Paper),
      exaCollectGo acc (pre ++ [(stub, { m with error := some e })] ++ post) =
      exaCollectGo acc (pre ++ post) := by
  intro pre
  induction pre with
  | nil =>
      intro acc
      by_cases hc : 20 ≤ acc.length
      · rw [exaCollectGo_cap hc, exaCollectGo_cap hc]
      · show exaCollectGo acc ((stub, { m with error := some e }) :: post) =
          exaCollectGo acc post
        unfold exaCollectGo
        rw [if_neg hc]
        cases post with
        | nil => rfl
        | cons q qs => rfl
  | cons hd rest ih =>
      intro acc
      obtain ⟨s0, m0⟩ := hd
      show exaCollectGo acc ((s0, m0) :: (rest ++ [(stub, { m with error := some e })] ++ post)) =
        exaCollectGo acc ((s0, m0) :: (rest ++ post))
      unfold exaCollectGo
      by_cases hc : 20 ≤ acc.length
      · rw [if_pos hc, if_pos hc]
      · rw [if_neg hc, if_neg hc]
        cases herr : m0.error with
        | some _ => exact ih acc
        | none =>
            dsimp only
            split_ifs <;> first
            | exact ih acc
            | exact ih _

def bioEntrySample : BioEntry :=
  { title := ("Phage therapy advances".data),
    abstract := ("a bacteriophage study".data),
    doi := ("10.2/b1".data), version := ("1".data),
    date := ("2025-09-01".data), category := ("microbiology".data) }

def exaStubSample : ExaStub :=
  { url := ("https://journal.example/articles/phage-genomics".data),
    title := ("Phage paper".data),
    text := ("bacteriophage text".data), publishedDate := ("2025-09-02".data) }

def exaMetaSample : Paper :=
  { url := some ("https://journal.example/articles/phage-genomics".data),
    type := some ("academic".data),
    title := some ("Phage genomics study".data),
    abstract := some ("work on a bacteriophage".data),
    doi := some ("10.2/e1".data), journal := some ("Journal".data) }

/-- C8 counterexample: a failing PubMed search - one (source, topic) pair -
aborts the whole run with the thrown `PubMed API returned 500`, and a
failing Exa search likewise aborts the run even with PubMed healthy; with
every unguarded call healthy the very same bioRxiv and Exa inputs
contribute a non-empty output, so their records were lost to the aborts. -/
theorem aggregator_pubmed_failure_aborts :
    tripleHybridRun (HttpResp.notOk 500) (HttpResp.ok [])
      [(("biorxiv".data), HttpResp.ok [bioEntrySample])] (some ("k1".data))
      ("unauthorized".data) (HttpResp.ok [exaStubSample]) (fun _ => exaMetaSample) =
      Except.error (("PubMed API returned ".data) ++ natStr 500) ∧
    tripleHybridRun (HttpResp.ok []) (HttpResp.ok [])
      [(("biorxiv".data), HttpResp.ok [bioEntrySample])] (some ("k1".data))
      ("unauthorized".data) (HttpResp.notOk 401) (fun _ => exaMetaSample) =
      Except.error ((("Exa API error: ".data) ++ natStr 401 ++ (" ".data) ++
        ("unauthorized".data))) ∧
    (tripleHybridRun (HttpResp.ok []) (HttpResp.ok [])
      [(("biorxiv".data), HttpResp.ok [bioEntrySample])] (some ("k1".data))
      ("unauthorized".data) (HttpResp.ok [exaStubSample])
      (fun _ => exaMetaSample)).isOk = true ∧
    (tripleHybridRun (HttpResp.ok []) (HttpResp.ok [])
      [(("biorxiv".data), HttpResp.ok [bioEntrySample])] (some ("k1".data))
      ("unauthorized".data) (HttpResp.ok [exaStubSample])
      (fun _ => exaMetaSample)).toOption ≠ some [] := by
  refine ⟨rfl, rfl, by decide, by decide⟩

/-- C8 (amended): failures are contained per bioRxiv server fetch and per
Exa metadata item - a non-ok or thrown server response and an errored
metadata record are simply skipped - and the run completes whenever the
PubMed search, the PubMed metadata fetch and the Exa search all succeed;
but a failure of the PubMed search (see the counterexample) or of the Exa
search (second conjunct) is NOT contained: it aborts the whole run through
the top-level catch. -/
theorem aggregator_partial_failure_containment :
    (∀ (pm : List JStr) (pp : List Paper) (bio : List (JStr × HttpResp (List BioEntry)))
        (key : Option JStr) (errt : JStr) (results : List ExaStub)
        (fetchMeta : ExaStub → Paper), truthy key = true →
      tripleHybridRun (HttpResp.ok pm) (HttpResp.ok pp) bio key errt
          (HttpResp.ok results) fetchMeta =
        Except.ok (deduplicatePapers ((if pm.isEmpty then [] else pp) ++
          searchBioRxiv1 bio ++
          exaCollect ((results.filter exaUrlFilter).map (fun s => (s, fetchMeta s)))))) ∧
    (∀ (pm : List JStr) (pp : List Paper) (bio : List (JStr × HttpResp (List BioEntry)))
        (key : Option JStr) (errt : JStr) (st : Nat) (fetchMeta : ExaStub → Paper),
      truthy key = true →
      tripleHybridRun (HttpResp.ok pm) (HttpResp.ok pp) bio key errt
          (HttpResp.notOk st) fetchMeta =
        Except.error ((("Exa API error: ".data) ++ natStr st ++ (" ".data) ++ errt))) ∧
    (∀ (name : JStr) (st : Nat) (pre post : List (JStr × HttpResp (List BioEntry))),
      searchBioRxiv1 (pre ++ [(name, HttpResp.notOk st)] ++ post) =
        searchBioRxiv1 (pre ++ post)) ∧
    (∀ (name msg : JStr) (pre post : List (JStr × HttpResp (List BioEntry))),
      searchBioRxiv1 (pre ++ [(name, HttpResp.netError msg)] ++ post) =
        searchBioRxiv1 (pre ++ post)) ∧
    (∀ (stub : ExaStub) (m : Paper) (e : JStr) (pre post : List (ExaStub × Paper)),
      exaCollect (pre ++ [(stub, { m with error := some e })] ++ post) =
        exaCollect (pre ++ post)) := by
  refine ⟨?_, ?_, ?_, ?_, ?_⟩
  · intro pm pp bio key errt results fetchMeta hkey
    by_cases hp : pm.isEmpty
    · simp only [tripleHybridRun, searchPubMedOutcome, fetchPubMedMetadataOutcome,
        if_pos hp, searchWithExaOutcome_ok hkey, Bind.bind, Except.bind, pure, Except.pure]
    · simp only [tripleHybridRun, searchPubMedOutcome, fetchPubMedMetadataOutcome,
        if_neg hp, searchWithExaOutcome_ok hkey, Bind.bind, Except.bind, pure, Except.pure]
  · intro pm pp bio key errt st fetchMeta hkey
    by_cases hp : pm.isEmpty
    · simp only [tripleHybridRun, searchPubMedOutcome, fetchPubMedMetadataOutcome,
        if_pos hp, searchWithExaOutcome_notOk hkey, Bind.bind, Except.bind, pure,
        Except.pure]
    · simp only [tripleHybridRun, searchPubMedOutcome, fetchPubMedMetadataOutcome,
        if_neg hp, searchWithExaOutcome_notOk hkey, Bind.bind, Except.bind, pure,
        Except.pure]
  · intro name st pre post
    induction pre with
    | nil => rfl
    | cons hd rest ih =>
        obtain ⟨s0, r0⟩ := hd
        cases r0 with
        | ok coll =>
            show (coll.filter bioPhageFilterD1).map (convertBio s0) ++
                searchBioRxiv1 (rest ++ [(name, HttpResp.notOk st)] ++ post) =
              (coll.filter bioPhageFilterD1).map (convertBio s0) ++
                searchBioRxiv1 (rest ++ post)
            rw [ih]
        | notOk s => exact ih
        | netError m => exact ih
  · intro name msg pre post
    induction pre with
    | nil => rfl
    | cons hd rest ih =>
        obtain ⟨s0, r0⟩ := hd
        cases r0 with
        | ok coll =>
            show (coll.filter bioPhageFilterD1).map (convertBio s0) ++
                searchBioRxiv1 (rest ++ [(name, HttpResp.netError msg)] ++ post) =
              (coll.filter bioPhageFilterD1).map (convertBio s0) ++
                searchBioRxiv1 (rest ++ post)
            rw [ih]
        | notOk s => exact ih
        | netError m => exact ih
  · intro stub m e pre post
    exact exaCollectGo_error_skip stub m e post pre []

theorem aggregator_partial_failure_containment_witness :
    truthy (some ("k1".data)) = true ∧
    tripleHybridRun (HttpResp.ok []) (HttpResp.ok [])
        [(("biorxiv".data), HttpResp.ok [bioEntrySample])] (some ("k1".data)) []
        (HttpResp.ok [exaStubSample]) (fun _ => exaMetaSample) =
      Except.ok (deduplicatePapers ((if ([] : List JStr).isEmpty then []
          else ([] : List Paper)) ++
        searchBioRxiv1 [(("biorxiv".data), HttpResp.ok [bioEntrySample])] ++
        exaCollect (([exaStubSample].filter exaUrlFilter).map
          (fun s => (s, exaMetaSample))))) :=
  ⟨rfl, aggregator_partial_failure_containment.1 [] []
    [(("biorxiv".data), HttpResp.ok [bioEntrySample])] (some ("k1".data)) []
    [exaStubSample] (fun _ => exaMetaSample) rfl⟩

/- ### fetchAcademicMetadata (core scrape module, lines 56-271)

The regexes of the source are literal-text patterns with a single capture
group; they are embedded as exact scanning functions.  The two JSON-LD
steps (JSON.parse inside its own try/catch, lines 102-123 and 171-182) and
the locale-dependent `new Date(...)` of the ISO branch are abstracted as an
explicit environment `ScrapeEnv`; every theorem quantifies over it. -/

inductive FetchOutcome where
  | ok (body : JStr)
  | notOk (status : Nat)
  | netError (msg : JStr)
  deriving DecidableEq, Repr

/-- Environment for the two non-regex subroutines of the extractor:
`jsonLdAuthors` is the author list the JSON-LD block of lines 104-122
produces from the captured script content (empty on parse failure or no
author field); `jsonLdDate` is `datePublished || dateCreated ||
dateModified` of lines 174-181 (none on failure); `isoDate` is the
host-timezone (year, monthIndex, day) of `new Date(ds)` (none for an
Invalid Date, whose NaN fields print as below). -/
structure ScrapeEnv where
  jsonLdAuthors : JStr → List JStr
  jsonLdDate : JStr → Option JStr
  isoDate : JStr → Option (Int × Int × Int)

/-- Try the pattern `pre([^stop]+)suf` at the head of `s`, `pre` and `suf`
given lowercase and matched case-insensitively, the capture taken from the
original text. -/
def captureAt (pre suf : JStr) (stop : Char) (s : JStr) : Option JStr :=
  if lowerStr (s.take pre.length) = pre then
    let rest := s.drop pre.length
    let cap := rest.takeWhile (fun c => decide (c ≠ stop))
    if !cap.isEmpty && lowerStr ((rest.drop cap.length).take suf.length) = suf then some cap
    else none
  else none

/-- `html.match(/pre([^stop]+)suf/i)`: first (leftmost) match's capture. -/
def captureFirst (pre suf : JStr) (stop : Char) : JStr → Option JStr
  | [] => none
  | c :: rest =>
      match captureAt pre suf stop (c :: rest) with
      | some cap => some cap
      | none => captureFirst pre suf stop rest

/-- `html.matchAll(/pre([^stop]+)suf/gi)`: all non-overlapping matches in
order (the scan resumes right after each full match; the capture and `pre`
are non-empty, so the full match consumes at least one character beyond the
head already removed). -/
def captureAll (pre suf : JStr) (stop : Char) : JStr → List JStr
  | [] => []
  | c :: rest =>
      match captureAt pre suf stop (c :: rest) with
      | some cap =>
          cap :: captureAll pre suf stop
            (rest.drop (pre.length + cap.length + suf.length - 1))
      | none => captureAll pre suf stop rest
  termination_by s => s.length
  decreasing_by
    all_goals simp [List.length_drop]
    all_goals omega

/-- A shorthand for the one-line meta-tag patterns
`/<meta ... content="([^"]+)"/i`. -/
def metaMatch (pre : String) (html : JStr) : Option JStr :=
  captureFirst pre.data (("\"").data) '"' html

/-- First index at which `sub` occurs in `s`. -/
def findSubIdx (sub : JStr) : JStr → Option Nat
  | [] => if sub.isEmpty then some 0 else none
  | c :: rest =>
      if (c :: rest).take sub.length = sub then some 0
      else
        match findSubIdx sub rest with
        | some i => some (i + 1)
        | none => none

/-- `html.match(/pre(.+?)suf/is)`: lazy capture of at least one character
up to the first later occurrence of `suf` (dot-all), both delimiters
matched case-insensitively. -/
def captureLazy (pre suf : JStr) : JStr → Option JStr
  | [] => none
  | c :: rest =>
      if lowerStr ((c :: rest).take pre.length) = pre then
        let body := (c :: rest).drop pre.length
        match findSubIdx suf (lowerStr body).tail with
        | some j => if body.isEmpty then none else some (body.take (j + 1))
        | none => captureLazy pre suf rest
      else captureLazy pre suf rest

/-- The captured content of the first JSON-LD script block
(`/<script type="application\/ld\+json">(.+?)<\/script>/is`). -/
def scriptJsonLd (html : JStr) : Option JStr :=
  captureLazy (("<script type=\"application/ld+json\">").data) (("</script>").data) html

/-- `t.replace(/\s*\|\s*.*$/, '')`: cut at the first pipe, also removing
the run of whitespace just before it (titles are assumed newline-free, as
meta-tag content is in practice). -/
def cutPipe (t : JStr) : JStr :=
  match t.findIdx? (fun c => decide (c = '|')) with
  | none => t
  | some q => t.take (q - ((t.take q).reverse.takeWhile Char.isWhitespace).length)

def isDashCh (c : Char) : Bool :=
  decide (c = '-') || decide (c = '–') || decide (c = '—')

def isUpperAZ (c : Char) : Bool := decide ('A' ≤ c) && decide (c ≤ 'Z')

/-- Does position `q` of `t` start the tail of a `/\s*[-–—]\s*[A-Z].*$/`
match: a dash followed (after optional whitespace) by an uppercase
letter? -/
def dashCutOk (t : JStr) (q : Nat) : Bool :=
  isDashCh (t.getD q ' ') &&
  isUpperAZ (((t.drop (q + 1)).dropWhile Char.isWhitespace).headD ' ')

/-- `t.replace(/\s*[-–—]\s*[A-Z].*$/, '')`. -/
def cutDash (t : JStr) : JStr :=
  match (List.range t.length).find? (dashCutOk t) with
  | none => t
  | some q => t.take (q - ((t.take q).reverse.takeWhile Char.isWhitespace).length)

/-- The og:title / html-title cleanup chain of lines 83-91. -/
def cleanTitle (t : JStr) : JStr := jsTrim (cutDash (cutPipe t))

/-- Title extraction chain (lines 72-92). -/
def titleOf (html : JStr) : Option JStr :=
  match metaMatch "<meta name=\"citation_title\" content=\"" html with
  | some t => some (jsTrim t)
  | none =>
  match metaMatch "<meta name=\"dc.title\" content=\"" html with
  | some t => some (jsTrim t)
  | none =>
  match metaMatch "<meta property=\"og:title\" content=\"" html with
  | some t => some (cleanTitle t)
  | none =>
  match captureFirst (("<title>").data) (("</title>").data) '<' html with
  | some t => some (cleanTitle t)
  | none => none

/-- Author extraction chain (lines 94-137). -/
def authorsOf (env : ScrapeEnv) (html : JStr) : List JStr :=
  let a1 := captureAll (("<meta name=\"citation_author\" content=\"").data)
    (("\"").data) '"' html
  if !a1.isEmpty then a1
  else
    let a2 := match scriptJsonLd html with
      | some content => env.jsonLdAuthors content
      | none => []
    if !a2.isEmpty then a2
    else
      let a3 := captureAll (("<meta name=\"dc.creator\" content=\"").data)
        (("\"").data) '"' html
      if !a3.isEmpty then a3
      else
        match metaMatch "<meta name=\"article:author\" content=\"" html with
        | some a => [a]
        | none => []

/-- Date-string extraction chain (lines 145-182). -/
def dateStringOf (env : ScrapeEnv) (html : JStr) : Option JStr :=
  match metaMatch "<meta name=\"citation_publication_date\" content=\"" html with
  | some ds => some ds
  | none =>
  match metaMatch "<meta name=\"citation_online_date\" content=\"" html with
  | some ds => some ds
  | none =>
  match metaMatch "<meta property=\"article:published_time\" content=\"" html with
  | some ds => some ds
  | none =>
  match metaMatch "<meta name=\"dc.date\" content=\"" html with
  | some ds => some ds
  | none =>
  match scriptJsonLd html with
  | some content => env.jsonLdDate content
  | none => none

/-- Journal extraction chain (lines 241-247). -/
def journalOf (html : JStr) : Option JStr :=
  match metaMatch "<meta name=\"citation_journal_title\" content=\"" html with
  | some j => some j
  | none =>
  match metaMatch "<meta name=\"citation_journal_abbrev\" content=\"" html with
  | some j => some j
  | none =>
  match metaMatch "<meta property=\"og:site_name\" content=\"" html with
  | some j => some j
  | none =>
  metaMatch "<meta name=\"dc.publisher\" content=\"" html

def isDigitCh (c : Char) : Bool := decide ('0' ≤ c) && decide (c ≤ '9')

/-- Try `/doi\.org\/(10\.\d{4,}\/[^\s"<]+)/i` at the head of `s`. -/
def doiOrgAt (s : JStr) : Option JStr :=
  if lowerStr (s.take 8) = ("doi.org/".data) then
    let rest := s.drop 8
    if rest.take 3 = ("10.".data) then
      let after := rest.drop 3
      let digits := after.takeWhile isDigitCh
      if decide (4 ≤ digits.length) && decide (after.getD digits.length ' ' = '/') then
        let tl := (after.drop (digits.length + 1)).takeWhile
          (fun c => !Char.isWhitespace c && decide (c ≠ '"') && decide (c ≠ '<'))
        if !tl.isEmpty then some ((("10.").data) ++ digits ++ (("/").data) ++ tl)
        else none
      else none
    else none
  else none

def doiOrgCapture : JStr → Option JStr
  | [] => none
  | c :: rest =>
      match doiOrgAt (c :: rest) with
      | some d => some d
      | none => doiOrgCapture rest

/-- DOI extraction chain (lines 249-255), including the final
`replace(/^doi:/, '')`. -/
def doiOf (html : JStr) : Option JStr :=
  let m :=
    match metaMatch "<meta name=\"citation_doi\" content=\"" html with
    | some d => some d
    | none =>
    match metaMatch "<meta name=\"dc.identifier\" content=\"doi:" html with
    | some d => some d
    | none => doiOrgCapture html
  m.map (fun d => if d.take 4 = ("doi:".data) then d.drop 4 else d)

/-- Abstract extraction chain (lines 257-260), before truncation. -/
def abstractRaw (html : JStr) : Option JStr :=
  match metaMatch "<meta name=\"citation_abstract\" content=\"" html with
  | some a => some a
  | none =>
  match metaMatch "<meta name=\"dc.description\" content=\"" html with
  | some a => some a
  | none =>
  metaMatch "<meta property=\"og:description\" content=\"" html

def isSepCh (c : Char) : Bool := decide (c = '/') || decide (c = '-')

/-- `/^\d{4}[\/\-]\d{2}[\/\-]\d{2}/` (prefix match, no anchor at the end:
full ISO timestamps also take this branch). -/
def matchYMDPrefix (ds : JStr) : Bool :=
  decide (10 ≤ ds.length) &&
  (ds.take 4).all isDigitCh && isSepCh (ds.getD 4 ' ') &&
  ((ds.drop 5).take 2).all isDigitCh && isSepCh (ds.getD 7 ' ') &&
  ((ds.drop 8).take 2).all isDigitCh

/-- `/^\d{4}[\/\-]\d{2}$/`. -/
def matchYM (ds : JStr) : Bool :=
  decide (ds.length = 7) && (ds.take 4).all isDigitCh && isSepCh (ds.getD 4 ' ') &&
  ((ds.drop 5).take 2).all isDigitCh

/-- `/^\d{4}-\d{2}-\d{2}T/`. -/
def matchISOT (ds : JStr) : Bool :=
  decide (11 ≤ ds.length) &&
  (ds.take 4).all isDigitCh && decide (ds.getD 4 ' ' = '-') &&
  ((ds.drop 5).take 2).all isDigitCh && decide (ds.getD 7 ' ' = '-') &&
  ((ds.drop 8).take 2).all isDigitCh && decide (ds.getD 10 ' ' = 'T')

/-- `/^\d{4}$/`. -/
def matchYearOnly (ds : JStr) : Bool :=
  decide (ds.length = 4) && ds.all isDigitCh

/-- `ds.split(/[\/\-]/)`. -/
def splitSeps : JStr → List JStr
  | [] => [[]]
  | c :: rest =>
      if isSepCh c then [] :: splitSeps rest
      else
        match splitSeps rest with
        | [] => [[c]]
        | w :: ws => (c :: w) :: ws

/-- JS `parseInt(s)` restricted to decimal inputs (optional sign, leading
whitespace); `none` is NaN. -/
def jsParseInt (s : JStr) : Option Int :=
  let s1 := s.dropWhile Char.isWhitespace
  let p := match s1 with
    | '-' :: r => (true, r)
    | '+' :: r => (false, r)
    | r => (false, r)
  let digits := p.2.takeWhile isDigitCh
  if digits.isEmpty then none
  else
    let v : Nat := digits.foldl (fun a c => a * 10 + (c.toNat - ('0').toNat)) 0
    some (if p.1 then -(v : Int) else (v : Int))

def monthNames : List JStr :=
  [("Jan".data), ("Feb".data), ("Mar".data), ("Apr".data), ("May".data), ("Jun".data),
    ("Jul".data), ("Aug".data), ("Sep".data), ("Oct".data), ("Nov".data), ("Dec".data)]

/-- `monthNames[i]` with out-of-range access printing as `undefined`. -/
def monthNameAt (i : Int) : JStr :=
  if 0 ≤ i ∧ i < 12 then monthNames.getD i.toNat [] else ("undefined".data)

/-- A JS number in a template literal (`NaN` for a failed parseInt). -/
def numStr (v : Option Int) : JStr :=
  match v with
  | some i => (toString i).data
  | none => ("NaN".data)

/-- `monthNames[month - 1]` in a template literal. -/
def monthOf (v : Option Int) : JStr :=
  match v with
  | some i => monthNameAt (i - 1)
  | none => ("undefined".data)

structure DateParts where
  dateFormatted : Option JStr := none
  year : Option JStr := none
  month : Option JStr := none
  day : Option JStr := none
  deriving DecidableEq, Repr

/-- The date-format dispatch of lines 184-238 (numeric day values are
stored by their decimal rendering). -/
def parseDateString (env : ScrapeEnv) (ds : JStr) : DateParts :=
  let sp := (" ".data)
  if matchYMDPrefix ds then
    let parts := splitSeps ds
    let year := parts.getD 0 []
    let month := jsParseInt (parts.getD 1 [])
    let day := jsParseInt (parts.getD 2 [])
    { dateFormatted := some (numStr day ++ sp ++ monthOf month ++ sp ++ year),
      year := some year, month := some (monthOf month), day := some (numStr day) }
  else if matchYM ds then
    let parts := splitSeps ds
    let year := parts.getD 0 []
    let month := jsParseInt (parts.getD 1 [])
    { dateFormatted := some (monthOf month ++ sp ++ year),
      year := some year, month := some (monthOf month) }
  else if matchISOT ds then
    match env.isoDate ds with
    | some (y, mIdx, d) =>
        { dateFormatted := some ((toString d).data ++ sp ++ monthNameAt mIdx ++ sp ++
            (toString y).data),
          year := some ((toString y).data), month := some (monthNameAt mIdx),
          day := some ((toString d).data) }
    | none =>
        { dateFormatted := some (("NaN".data) ++ sp ++ ("undefined".data) ++ sp ++
            ("NaN".data)),
          year := some ("NaN".data), month := some ("undefined".data),
          day := some ("NaN".data) }
  else if matchYearOnly ds then
    { dateFormatted := some ds, year := some ds }
  else
    { dateFormatted := some ds, year := findFourDigits ds }
where
  /-- `ds.match(/\d{4}/)`: the first run of four digits. -/
  findFourDigits : JStr → Option JStr
    | [] => none
    | c :: rest =>
        if decide (4 ≤ (c :: rest).length) && ((c :: rest).take 4).all isDigitCh then
          some ((c :: rest).take 4)
        else findFourDigits rest

/-- `fetchAcademicMetadata(url)` (lines 56-271), the whole body of which is
wrapped in try/catch: a non-ok response returns `{url, type, error: HTTP
<status>}` (line 66), a thrown fetch/timeout error returns `{url, type,
error: message}` (line 269), and a readable page yields the extracted
metadata object, whose `error` field is never set. -/
def fetchAcademicMetadata (url : JStr) (env : ScrapeEnv) (r : FetchOutcome) : Paper :=
  match r with
  | FetchOutcome.notOk status =>
      { url := some url, type := some ("academic".data),
        error := some ((("HTTP ").data) ++ natStr status) }
  | FetchOutcome.netError msg =>
      { url := some url, type := some ("academic".data), error := some msg }
  | FetchOutcome.ok html =>
      let authors := authorsOf env html
      let dparts :=
        match dateStringOf env html with
        | some ds => parseDateString env ds
        | none => {}
      { url := some url, type := some ("academic".data),
        title := titleOf html,
        authors := if 5 < authors.length then authors.take 5 ++ [("et al.".data)]
          else authors,
        date := dateStringOf env html,
        dateFormatted := dparts.dateFormatted,
        year := dparts.year, month := dparts.month, day := dparts.day,
        journal := journalOf html,
        doi := doiOf html,
        abstract := (abstractRaw html).map
          (fun a => if 300 < a.length then a.take 300 ++ (("...").data) else a) }

/- ### Claims C7 and C9 -/

/-- C7.  The Metadata Fetcher's error contract: `fetchAcademicMetadata`
never throws; a non-ok HTTP response yields a failure value carrying the
HTTP status, a network error or timeout yields a failure value carrying the
error message, and a readable page always yields a record with no error
field - missing metadata fields are simply absent in the returned record,
never an error. -/
theorem fetchAcademicMetadata_error_contract :
    (∀ (url : JStr) (env : ScrapeEnv) (status : Nat),
      fetchAcademicMetadata url env (FetchOutcome.notOk status) =
        { url := some url, type := some ("academic".data),
          error := some ((("HTTP ").data) ++ natStr status) }) ∧
    (∀ (url : JStr) (env : ScrapeEnv) (msg : JStr),
      fetchAcademicMetadata url env (FetchOutcome.netError msg) =
        { url := some url, type := some ("academic".data), error := some msg }) ∧
    (∀ (url : JStr) (env : ScrapeEnv) (body : JStr),
      (fetchAcademicMetadata url env (FetchOutcome.ok body)).error = none) :=
  ⟨fun _ _ _ => rfl, fun _ _ _ => rfl, fun _ _ _ => rfl⟩

/-- C9.  Abstract truncation: on every readable page the returned abstract
is the extracted abstract metadata cut to its first 300 characters with
`...` appended when the original was longer, so its length never exceeds
303 characters (and it is absent exactly when no abstract metadata was
found). -/
theorem fetchAcademicMetadata_abstract_truncation (url : JStr) (env : ScrapeEnv)
    (body : JStr) :
    (fetchAcademicMetadata url env (FetchOutcome.ok body)).abstract =
      (abstractRaw body).map
        (fun a => if 300 < a.length then a.take 300 ++ (("...").data) else a) ∧
    ((fetchAcademicMetadata url env (FetchOutcome.ok body)).abstract.getD []).length ≤ 303 := by
  have hr : (fetchAcademicMetadata url env (FetchOutcome.ok body)).abstract =
      (abstractRaw body).map
        (fun a => if 300 < a.length then a.take 300 ++ (("...").data) else a) := rfl
  refine ⟨hr, ?_⟩
  rw [hr]
  cases habs : abstractRaw body with
  | none => simp
  | some a =>
      simp only [Option.map_some', Option.getD_some]
      by_cases h3 : 300 < a.length
      · rw [if_pos h3]
        simp only [List.length_append, List.length_take, List.length_cons, List.length_nil]
        omega
      · rw [if_neg h3]
        omega
